import Mathlib

/-!
# Verification of the air-conditioner remote convergence engine

Shallow embedding of `src/air-conditioner-remote` (the EEPROM-capable
hardware revision) and of the sprinkler-tank water-level probe, together
with theorems settling the specification claims.

Machine integers are modelled as `Nat`/`Int`; where the C code relies on
unsigned wraparound the reduction modulo `2 ^ 32` is written explicitly.
-/

namespace ACRemote

/-! ## Compile-time constants (from the source) -/

def EEPROM_ADDRESS_SM_ACTIVE : Nat := 0
def EEPROM_ADDRESS_SM_TARGET_HEATER_COOLER_STATE : Nat := 1
def EEPROM_ADDRESS_SM_COOLING_THRESHOLD_TEMPERATURE : Nat := 2
def EEPROM_ADDRESS_SM_HEATING_THRESHOLD_TEMPERATURE : Nat := 3
def EEPROM_ADDRESS_SM_SWING_MODE : Nat := 4

def IR_COMMAND_SWITCH_POWER : Nat := 0x6B
def IR_COMMAND_SWITCH_MODE : Nat := 0x66
def IR_COMMAND_TOGGLE_SWING : Nat := 0x67
def IR_COMMAND_TEMPERATURE_INCREASE : Nat := 0x65
def IR_COMMAND_TEMPERATURE_DECREASE : Nat := 0x68

def SM_CONVERGE_EVERY_MILLISECONDS : Nat := 100
def SM_WAKE_UP_EVERY_MILLISECONDS : Nat := 1000

def RANGE_TEMPERATURE_COOL_MINIMUM : Nat := 18
def RANGE_TEMPERATURE_COOL_MAXIMUM : Nat := 32
def RANGE_TEMPERATURE_HEAT_MINIMUM : Nat := 13
def RANGE_TEMPERATURE_HEAT_MAXIMUM : Nat := 27

/-- Enum `VALUES_ACTIVE`. -/
def ACTIVE_INACTIVE : Nat := 0
def ACTIVE_ACTIVE : Nat := 1

/-- Enum `VALUES_CURRENT_HEATER_COOLER_STATE`. -/
def CURRENT_HEATER_COOLER_STATE_INACTIVE : Nat := 0
def CURRENT_HEATER_COOLER_STATE_IDLE : Nat := 1
def CURRENT_HEATER_COOLER_STATE_HEATING : Nat := 2
def CURRENT_HEATER_COOLER_STATE_COOLING : Nat := 3

/-- Enum `VALUES_TARGET_HEATER_COOLER_STATE`. -/
def TARGET_HEATER_COOLER_STATE_AUTO : Nat := 0
def TARGET_HEATER_COOLER_STATE_HEAT : Nat := 1
def TARGET_HEATER_COOLER_STATE_COOL : Nat := 2
def TARGET_HEATER_COOLER_STATE_UNMAPPED_1 : Nat := 3
def TARGET_HEATER_COOLER_STATE_UNMAPPED_2 : Nat := 4

/-- Enum `VALUES_SWING_MODE`. -/
def ACTIVE_SWING_MODE_DISABLED : Nat := 0
def ACTIVE_SWING_MODE_ENABLED : Nat := 1

def STATES_DIRECTION_ACTIVE : List Nat :=
  [ACTIVE_INACTIVE,
   ACTIVE_ACTIVE]

def STATES_DIRECTION_TARGET_HEATER_COOLER_STATE : List Nat :=
  [TARGET_HEATER_COOLER_STATE_HEAT,
   TARGET_HEATER_COOLER_STATE_AUTO,
   TARGET_HEATER_COOLER_STATE_COOL,
   TARGET_HEATER_COOLER_STATE_UNMAPPED_1,
   TARGET_HEATER_COOLER_STATE_UNMAPPED_2]

def STATES_COOLING_THRESHOLD_TEMPERATURE : List Nat :=
  [RANGE_TEMPERATURE_COOL_MINIMUM,
   19, 20, 21, 22, 23, 24, 25, 26, 27, 28, 29, 30, 31,
   RANGE_TEMPERATURE_COOL_MAXIMUM]

def STATES_HEATING_THRESHOLD_TEMPERATURE : List Nat :=
  [RANGE_TEMPERATURE_HEAT_MINIMUM,
   14, 15, 16, 17, 18, 19, 20, 21, 22, 23, 24, 25, 26,
   RANGE_TEMPERATURE_HEAT_MAXIMUM]

def STATES_SWING_MODE : List Nat :=
  [ACTIVE_SWING_MODE_DISABLED,
   ACTIVE_SWING_MODE_ENABLED]

def SIZE_DIRECTION_ACTIVE : Nat := 2
def SIZE_DIRECTION_TARGET_HEATER_COOLER_STATE : Nat := 5
def SIZE_DIRECTION_COOLING_THRESHOLD_TEMPERATURE : Nat := 15
def SIZE_DIRECTION_HEATING_THRESHOLD_TEMPERATURE : Nat := 15
def SIZE_DIRECTION_SWING_MODE : Nat := 2

def DEFAULT_ACTIVE : Nat := ACTIVE_INACTIVE
def DEFAULT_TARGET_HEATER_COOLER_STATE : Nat := TARGET_HEATER_COOLER_STATE_COOL
def DEFAULT_THRESHOLD_TEMPERATURE : Nat := 18
def DEFAULT_SWING_MODE : Nat := ACTIVE_SWING_MODE_ENABLED

/-! ## Circular state progression (`progressNextState`) -/

/-- Body of the `for (int i = 0; i < statesCircleSize; i++)` scan inside
`progressNextState`, rendered structurally: `remaining` counts the loop
iterations still allowed (`statesCircleSize - i`). -/
def findStateIndexGo (statesCircle : List Nat) (currentState : Nat) (i : Nat) : Nat → Int
  | 0 => -1
  | remaining + 1 =>
    if currentState = statesCircle.getD i 0 then (i : Int)
    else findStateIndexGo statesCircle currentState (i + 1) remaining

/-- The full scan: first index `i < statesCircleSize` with
`currentState == statesCircle[i]`, else `-1` (`currentStateIndex` in the source). -/
def findStateIndex (statesCircle : List Nat) (statesCircleSize : Nat) (currentState : Nat) : Int :=
  findStateIndexGo statesCircle currentState 0 statesCircleSize

/-- `progressNextState(statesCircle, statesCircleSize, currentState, increment, circle)`.

In the source `nextStateIndex` has C type `unsigned int`, so the assignment
`nextStateIndex = currentStateIndex + increment` reduces the signed sum modulo
`2 ^ 32`; the subsequent `else if (nextStateIndex < 0)` branch of the source is
dead code (an unsigned value is never negative) and is therefore dropped here:
an underflowing index lands in the `nextStateIndex >= statesCircleSize` branch. -/
def progressNextState (statesCircle : List Nat) (statesCircleSize : Nat)
    (currentState : Nat) (increment : Int) (circle : Bool) : Nat :=
  let currentStateIndex : Int := findStateIndex statesCircle statesCircleSize currentState
  if currentStateIndex < 0 then
    statesCircle.getD 0 0
  else
    let nextStateIndex : Nat := ((currentStateIndex + increment) % (2 ^ 32 : Int)).toNat
    if nextStateIndex ≥ statesCircleSize then
      (if circle = true then statesCircle.getD 0 0 else statesCircle.getD (statesCircleSize - 1) 0)
    else
      statesCircle.getD nextStateIndex 0

/-! ## State-machine data model -/

/-- The Confirmed Configuration: the five `sm*` fields of the service. -/
structure SMState where
  smActive : Nat
  smTargetHeaterCoolerState : Nat
  smCoolingThresholdTemperature : Nat
  smHeatingThresholdTemperature : Nat
  smSwingMode : Nat
  deriving DecidableEq

/-- The Desired Configuration: the user-facing HomeKit characteristic values
read through `getVal()` during a tick. -/
structure HKValues where
  hkActive : Nat
  hkTargetHeaterCoolerState : Nat
  hkCoolingThresholdTemperature : Nat
  hkHeatingThresholdTemperature : Nat
  hkSwingMode : Nat
  deriving DecidableEq

/-- One infrared emission, identified by the call site inside `tickTaskSM`. -/
inductive IRAction where
  | switchPower
  | switchMode
  | coolIncrease
  | coolDecrease
  | heatIncrease
  | heatDecrease
  | toggleSwing
  deriving DecidableEq

/-- The physical IR command word passed to `emitInfraRedWord` by each call site. -/
def IRAction.word : IRAction → Nat
  | .switchPower => IR_COMMAND_SWITCH_POWER
  | .switchMode => IR_COMMAND_SWITCH_MODE
  | .coolIncrease => IR_COMMAND_TEMPERATURE_INCREASE
  | .coolDecrease => IR_COMMAND_TEMPERATURE_DECREASE
  | .heatIncrease => IR_COMMAND_TEMPERATURE_INCREASE
  | .heatDecrease => IR_COMMAND_TEMPERATURE_DECREASE
  | .toggleSwing => IR_COMMAND_TOGGLE_SWING

/-- `convertTargetModeToCurrentMode(active, targetMode)`. -/
def convertTargetModeToCurrentMode (active : Nat) (targetMode : Nat) : Nat :=
  if active = ACTIVE_ACTIVE then
    if targetMode = TARGET_HEATER_COOLER_STATE_COOL ∨ targetMode = TARGET_HEATER_COOLER_STATE_AUTO then
      CURRENT_HEATER_COOLER_STATE_COOLING
    else if targetMode = TARGET_HEATER_COOLER_STATE_HEAT then
      CURRENT_HEATER_COOLER_STATE_HEATING
    else
      CURRENT_HEATER_COOLER_STATE_IDLE
  else
    CURRENT_HEATER_COOLER_STATE_INACTIVE

/-- Everything one `tickTaskSM` invocation does besides reading: the new
confirmed state, the `writeEEPROM` calls it staged (address, value), the IR
emissions, the `hkCurrentHeaterCoolerState->setVal` push when one happened,
and the returned boolean. -/
structure TickResult where
  state : SMState
  writes : List (Nat × Nat)
  signals : List IRAction
  currentModePush : Option Nat
  hasConverged : Bool
  deriving DecidableEq

/-- `tickTaskSM()`, with the Desired Configuration `hk` (read through the
facade) and the Confirmed Configuration `s` as explicit inputs. -/
def tickTaskSM (hk : HKValues) (s : SMState) : TickResult :=
  -- [HIGH] Priority #1: Converge active mode?
  if hk.hkActive ≠ s.smActive then
    let smActive := progressNextState STATES_DIRECTION_ACTIVE SIZE_DIRECTION_ACTIVE s.smActive 1 true
    { state := { s with smActive := smActive },
      writes := [(EEPROM_ADDRESS_SM_ACTIVE, smActive)],
      signals := [.switchPower],
      currentModePush := none,
      hasConverged := false }
  -- [HIGH] Priority #2: Converge target mode?
  else if hk.hkTargetHeaterCoolerState ≠ s.smTargetHeaterCoolerState then
    let smT := progressNextState STATES_DIRECTION_TARGET_HEATER_COOLER_STATE
      SIZE_DIRECTION_TARGET_HEATER_COOLER_STATE s.smTargetHeaterCoolerState 1 true
    { state := { s with smTargetHeaterCoolerState := smT },
      writes := [(EEPROM_ADDRESS_SM_TARGET_HEATER_COOLER_STATE, smT)],
      signals := [.switchMode],
      currentModePush :=
        -- Force-update current mode in HK? (converged)
        if smT = hk.hkTargetHeaterCoolerState then
          some (convertTargetModeToCurrentMode s.smActive smT)
        else none,
      hasConverged := false }
  else if s.smActive = ACTIVE_ACTIVE ∧ s.smTargetHeaterCoolerState > TARGET_HEATER_COOLER_STATE_AUTO then
    -- [MEDIUM] Priority #1: Converge cooling temperature?
    if s.smTargetHeaterCoolerState = TARGET_HEATER_COOLER_STATE_COOL ∧
        hk.hkCoolingThresholdTemperature ≠ s.smCoolingThresholdTemperature then
      let coolingIncrement : Int :=
        if s.smCoolingThresholdTemperature < hk.hkCoolingThresholdTemperature then 1 else -1
      let smC := progressNextState STATES_COOLING_THRESHOLD_TEMPERATURE
        SIZE_DIRECTION_COOLING_THRESHOLD_TEMPERATURE s.smCoolingThresholdTemperature
        coolingIncrement false
      { state := { s with smCoolingThresholdTemperature := smC },
        writes := [(EEPROM_ADDRESS_SM_COOLING_THRESHOLD_TEMPERATURE, smC)],
        signals := [if coolingIncrement > 0 then .coolIncrease else .coolDecrease],
        currentModePush := none,
        hasConverged := false }
    -- [MEDIUM] Priority #2: Converge heating temperature?
    else if s.smTargetHeaterCoolerState = TARGET_HEATER_COOLER_STATE_HEAT ∧
        hk.hkHeatingThresholdTemperature ≠ s.smHeatingThresholdTemperature then
      let heatingIncrement : Int :=
        if s.smHeatingThresholdTemperature < hk.hkHeatingThresholdTemperature then 1 else -1
      let smH := progressNextState STATES_HEATING_THRESHOLD_TEMPERATURE
        SIZE_DIRECTION_HEATING_THRESHOLD_TEMPERATURE s.smHeatingThresholdTemperature
        heatingIncrement false
      { state := { s with smHeatingThresholdTemperature := smH },
        writes := [(EEPROM_ADDRESS_SM_HEATING_THRESHOLD_TEMPERATURE, smH)],
        signals := [if heatingIncrement > 0 then .heatIncrease else .heatDecrease],
        currentModePush := none,
        hasConverged := false }
    -- [LOW] Priority #1: Converge swing mode?
    else if hk.hkSwingMode ≠ s.smSwingMode then
      let smS := progressNextState STATES_SWING_MODE SIZE_DIRECTION_SWING_MODE s.smSwingMode 1 true
      { state := { s with smSwingMode := smS },
        writes := [(EEPROM_ADDRESS_SM_SWING_MODE, smS)],
        signals := [.toggleSwing],
        currentModePush := none,
        hasConverged := false }
    else
      -- Has converged (nothing to do)
      { state := s, writes := [], signals := [], currentModePush := none, hasConverged := true }
  else
    -- Has converged (nothing to do)
    { state := s, writes := [], signals := [], currentModePush := none, hasConverged := true }

/-! ## EEPROM load path -/

/-- `readEEPROMOrDefault(address, defaultValue)`; the underlying store is the
byte map `eeprom` (each `EEPROM.read` yields one byte, `0..255`). -/
def readEEPROMOrDefault (eeprom : Nat → Nat) (address : Nat) (defaultValue : Nat) : Nat :=
  let savedValue := eeprom address
  -- Value empty? (ie. EEPROM is empty)
  if savedValue = 255 then defaultValue
  -- Value is set (ie. EEPROM has data)
  else savedValue

/-- `initializeStateMachineValues()`: load all values from the ROM (or use defaults). -/
def initializeStateMachineValues (eeprom : Nat → Nat) : SMState :=
  { smActive := readEEPROMOrDefault eeprom EEPROM_ADDRESS_SM_ACTIVE DEFAULT_ACTIVE,
    smTargetHeaterCoolerState :=
      readEEPROMOrDefault eeprom EEPROM_ADDRESS_SM_TARGET_HEATER_COOLER_STATE
        DEFAULT_TARGET_HEATER_COOLER_STATE,
    smCoolingThresholdTemperature :=
      readEEPROMOrDefault eeprom EEPROM_ADDRESS_SM_COOLING_THRESHOLD_TEMPERATURE
        DEFAULT_THRESHOLD_TEMPERATURE,
    smHeatingThresholdTemperature :=
      readEEPROMOrDefault eeprom EEPROM_ADDRESS_SM_HEATING_THRESHOLD_TEMPERATURE
        DEFAULT_THRESHOLD_TEMPERATURE,
    smSwingMode := readEEPROMOrDefault eeprom EEPROM_ADDRESS_SM_SWING_MODE DEFAULT_SWING_MODE }

/-! ## Scheduler (converge-task timing fields and the `update()` callback) -/

/-- The scheduler fields of the service that govern the converge task, plus
the Confirmed Configuration (untouched by `update()`). -/
structure ServiceState where
  lastLoopSMMillis : Nat
  delayLoopSMMillis : Nat
  sm : SMState
  deriving DecidableEq

/-- `update()`: sets `delayLoopSMMillis = SM_WAKE_UP_EVERY_MILLISECONDS`,
`lastLoopSMMillis = millis()`, and returns `true`.  It calls neither
`tickTaskSM` nor `emitInfraRedWord`, so it changes no confirmed field and
emits nothing. -/
def update (svc : ServiceState) (nowMillis : Nat) : ServiceState × Bool :=
  ({ svc with
      delayLoopSMMillis := SM_WAKE_UP_EVERY_MILLISECONDS,
      lastLoopSMMillis := nowMillis }, true)

/-- The loop's converge-task guard at time `now`:
`(nowMillis - lastLoopSMMillis) >= delayLoopSMMillis` (the subtraction is
exact whenever `lastLoopSMMillis ≤ now`, the regime modelled here). -/
def smTickDueAt (svc : ServiceState) (now : Nat) : Prop :=
  now - svc.lastLoopSMMillis ≥ svc.delayLoopSMMillis

instance (svc : ServiceState) (now : Nat) : Decidable (smTickDueAt svc now) := by
  unfold smTickDueAt; infer_instance

/-- The converge task's next-due time after a scheduler state change. -/
def smNextDue (svc : ServiceState) : Nat :=
  svc.lastLoopSMMillis + svc.delayLoopSMMillis

/-! ## Derived notions used by the claims -/

/-- Iterated engine ticks against a fixed Desired Configuration:
`tickStates hk s n` is the Confirmed Configuration after `n` calls. -/
def tickStates (hk : HKValues) (s : SMState) : Nat → SMState
  | 0 => s
  | n + 1 => (tickTaskSM hk (tickStates hk s n)).state

/-- Membership invariant: every confirmed field is an element of its fixed
state sequence. -/
def validSM (s : SMState) : Prop :=
  s.smActive ∈ STATES_DIRECTION_ACTIVE ∧
  s.smTargetHeaterCoolerState ∈ STATES_DIRECTION_TARGET_HEATER_COOLER_STATE ∧
  s.smCoolingThresholdTemperature ∈ STATES_COOLING_THRESHOLD_TEMPERATURE ∧
  s.smHeatingThresholdTemperature ∈ STATES_HEATING_THRESHOLD_TEMPERATURE ∧
  s.smSwingMode ∈ STATES_SWING_MODE

instance (s : SMState) : Decidable (validSM s) := by
  unfold validSM; infer_instance

/-- Desired Configuration within the declared characteristic ranges: power in
`{0,1}`, target mode in `{Auto, Heat, Cool}`, cooling setpoint in `[18,32]`,
heating setpoint in `[13,27]`, swing in `{0,1}`. -/
def hkInRanges (hk : HKValues) : Prop :=
  hk.hkActive ≤ 1 ∧
  hk.hkTargetHeaterCoolerState ≤ TARGET_HEATER_COOLER_STATE_COOL ∧
  RANGE_TEMPERATURE_COOL_MINIMUM ≤ hk.hkCoolingThresholdTemperature ∧
  hk.hkCoolingThresholdTemperature ≤ RANGE_TEMPERATURE_COOL_MAXIMUM ∧
  RANGE_TEMPERATURE_HEAT_MINIMUM ≤ hk.hkHeatingThresholdTemperature ∧
  hk.hkHeatingThresholdTemperature ≤ RANGE_TEMPERATURE_HEAT_MAXIMUM ∧
  hk.hkSwingMode ≤ 1

instance (hk : HKValues) : Decidable (hkInRanges hk) := by
  unfold hkInRanges; infer_instance

/-- Number of fields on which Desired and Confirmed Configuration disagree. -/
def countMismatches (hk : HKValues) (s : SMState) : Nat :=
  (if hk.hkActive = s.smActive then 0 else 1) +
  (if hk.hkTargetHeaterCoolerState = s.smTargetHeaterCoolerState then 0 else 1) +
  (if hk.hkCoolingThresholdTemperature = s.smCoolingThresholdTemperature then 0 else 1) +
  (if hk.hkHeatingThresholdTemperature = s.smHeatingThresholdTemperature then 0 else 1) +
  (if hk.hkSwingMode = s.smSwingMode then 0 else 1)

/-- Number of fields on which two Confirmed Configurations differ. -/
def changedFieldCount (s s' : SMState) : Nat :=
  (if s.smActive = s'.smActive then 0 else 1) +
  (if s.smTargetHeaterCoolerState = s'.smTargetHeaterCoolerState then 0 else 1) +
  (if s.smCoolingThresholdTemperature = s'.smCoolingThresholdTemperature then 0 else 1) +
  (if s.smHeatingThresholdTemperature = s'.smHeatingThresholdTemperature then 0 else 1) +
  (if s.smSwingMode = s'.smSwingMode then 0 else 1)

/-! ## General lemmas about `progressNextState` -/

theorem findStateIndexGo_eq_neg_one (l : List Nat) (c : Nat) :
    ∀ r i, (∀ k, i ≤ k → k < i + r → l.getD k 0 ≠ c) → findStateIndexGo l c i r = -1 := by
  intro r
  induction r with
  | zero => intro i _; rfl
  | succ r ih =>
    intro i h
    unfold findStateIndexGo
    rw [if_neg, ih (i + 1)]
    · intro k hk1 hk2
      exact h k (by omega) (by omega)
    · intro hc
      exact h i (le_refl i) (by omega) hc.symm

theorem findStateIndex_of_not_mem (l : List Nat) (c : Nat) (h : c ∉ l) :
    findStateIndex l l.length c = -1 := by
  apply findStateIndexGo_eq_neg_one
  intro k _ hk hc
  apply h
  rw [← hc, List.getD_eq_getElem l 0 (by omega)]
  exact List.getElem_mem _

/-- When the current value is not in the sequence, `progressNextState` falls
back to the sequence's first element. -/
theorem progressNextState_not_mem (l : List Nat) (size a : Nat) (inc : Int) (c : Bool)
    (hsize : size = l.length) (h0 : a ∉ l) :
    progressNextState l size a inc c = l.getD 0 0 := by
  subst hsize
  have hfi := findStateIndex_of_not_mem l a h0
  unfold progressNextState
  rw [hfi]
  simp

/-- `progressNextState` always returns an element of the sequence. -/
theorem progressNextState_mem (l : List Nat) (size a : Nat) (inc : Int) (c : Bool)
    (hsize : size = l.length) (hpos : l ≠ []) : progressNextState l size a inc c ∈ l := by
  subst hsize
  have hlen : 0 < l.length := List.length_pos.mpr hpos
  simp only [progressNextState]
  split_ifs with h1 h2 h3 <;>
    (rw [List.getD_eq_getElem l 0 (by omega)]; exact List.getElem_mem _)

/-! ## Stepped fields really change (under in-range desired values) -/

theorem stepActive_ne (a : Nat) :
    progressNextState STATES_DIRECTION_ACTIVE SIZE_DIRECTION_ACTIVE a 1 true ≠ a := by
  by_cases h0 : a ∈ STATES_DIRECTION_ACTIVE
  · revert h0
    have h : ∀ x ∈ STATES_DIRECTION_ACTIVE,
        progressNextState STATES_DIRECTION_ACTIVE SIZE_DIRECTION_ACTIVE x 1 true ≠ x := by decide
    exact h a
  · rw [progressNextState_not_mem _ _ _ _ _ (by decide) h0]
    intro h
    apply h0
    rw [← h]
    decide

theorem stepMode_ne (m : Nat) :
    progressNextState STATES_DIRECTION_TARGET_HEATER_COOLER_STATE
      SIZE_DIRECTION_TARGET_HEATER_COOLER_STATE m 1 true ≠ m := by
  by_cases h0 : m ∈ STATES_DIRECTION_TARGET_HEATER_COOLER_STATE
  · revert h0
    have h : ∀ x ∈ STATES_DIRECTION_TARGET_HEATER_COOLER_STATE,
        progressNextState STATES_DIRECTION_TARGET_HEATER_COOLER_STATE
          SIZE_DIRECTION_TARGET_HEATER_COOLER_STATE x 1 true ≠ x := by decide
    exact h m
  · rw [progressNextState_not_mem _ _ _ _ _ (by decide) h0]
    intro h
    apply h0
    rw [← h]
    decide

theorem stepSwing_ne (w : Nat) :
    progressNextState STATES_SWING_MODE SIZE_DIRECTION_SWING_MODE w 1 true ≠ w := by
  by_cases h0 : w ∈ STATES_SWING_MODE
  · revert h0
    have h : ∀ x ∈ STATES_SWING_MODE,
        progressNextState STATES_SWING_MODE SIZE_DIRECTION_SWING_MODE x 1 true ≠ x := by decide
    exact h w
  · rw [progressNextState_not_mem _ _ _ _ _ (by decide) h0]
    intro h
    apply h0
    rw [← h]
    decide

theorem mem_cool_of_bounds {h : Nat} (h1 : 18 ≤ h) (h2 : h ≤ 32) :
    h ∈ STATES_COOLING_THRESHOLD_TEMPERATURE := by
  interval_cases h <;> decide

theorem mem_heat_of_bounds {h : Nat} (h1 : 13 ≤ h) (h2 : h ≤ 27) :
    h ∈ STATES_HEATING_THRESHOLD_TEMPERATURE := by
  interval_cases h <;> decide

theorem stepCool_ne (c h : Nat) (h1 : 18 ≤ h) (h2 : h ≤ 32) (hne : h ≠ c) :
    progressNextState STATES_COOLING_THRESHOLD_TEMPERATURE
      SIZE_DIRECTION_COOLING_THRESHOLD_TEMPERATURE c (if c < h then 1 else -1) false ≠ c := by
  by_cases h0 : c ∈ STATES_COOLING_THRESHOLD_TEMPERATURE
  · have key : ∀ x ∈ STATES_COOLING_THRESHOLD_TEMPERATURE,
        ∀ y ∈ STATES_COOLING_THRESHOLD_TEMPERATURE, y ≠ x →
        progressNextState STATES_COOLING_THRESHOLD_TEMPERATURE
          SIZE_DIRECTION_COOLING_THRESHOLD_TEMPERATURE x (if x < y then 1 else -1) false ≠ x := by
      decide
    exact key c h0 h (mem_cool_of_bounds h1 h2) hne
  · rw [progressNextState_not_mem _ _ _ _ _ (by decide) h0]
    intro h
    apply h0
    rw [← h]
    decide

theorem stepHeat_ne (c h : Nat) (h1 : 13 ≤ h) (h2 : h ≤ 27) (hne : h ≠ c) :
    progressNextState STATES_HEATING_THRESHOLD_TEMPERATURE
      SIZE_DIRECTION_HEATING_THRESHOLD_TEMPERATURE c (if c < h then 1 else -1) false ≠ c := by
  by_cases h0 : c ∈ STATES_HEATING_THRESHOLD_TEMPERATURE
  · have key : ∀ x ∈ STATES_HEATING_THRESHOLD_TEMPERATURE,
        ∀ y ∈ STATES_HEATING_THRESHOLD_TEMPERATURE, y ≠ x →
        progressNextState STATES_HEATING_THRESHOLD_TEMPERATURE
          SIZE_DIRECTION_HEATING_THRESHOLD_TEMPERATURE x (if x < y then 1 else -1) false ≠ x := by
      decide
    exact key c h0 h (mem_heat_of_bounds h1 h2) hne
  · rw [progressNextState_not_mem _ _ _ _ _ (by decide) h0]
    intro h
    apply h0
    rw [← h]
    decide

theorem stepActive_ne_symm (a : Nat) :
    a ≠ progressNextState STATES_DIRECTION_ACTIVE SIZE_DIRECTION_ACTIVE a 1 true :=
  (stepActive_ne a).symm

theorem stepMode_ne_symm (m : Nat) :
    m ≠ progressNextState STATES_DIRECTION_TARGET_HEATER_COOLER_STATE
      SIZE_DIRECTION_TARGET_HEATER_COOLER_STATE m 1 true :=
  (stepMode_ne m).symm

theorem stepSwing_ne_symm (w : Nat) :
    w ≠ progressNextState STATES_SWING_MODE SIZE_DIRECTION_SWING_MODE w 1 true :=
  (stepSwing_ne w).symm

theorem stepCoolInc_ne (c h : Nat) (h1 : 18 ≤ h) (h2 : h ≤ 32) (hlt : c < h) :
    progressNextState STATES_COOLING_THRESHOLD_TEMPERATURE
      SIZE_DIRECTION_COOLING_THRESHOLD_TEMPERATURE c 1 false ≠ c := by
  have key := stepCool_ne c h h1 h2 (by omega)
  rwa [if_pos hlt] at key

theorem stepCoolDec_ne (c h : Nat) (h1 : 18 ≤ h) (h2 : h ≤ 32) (hgt : h < c) :
    progressNextState STATES_COOLING_THRESHOLD_TEMPERATURE
      SIZE_DIRECTION_COOLING_THRESHOLD_TEMPERATURE c (-1) false ≠ c := by
  have key := stepCool_ne c h h1 h2 (by omega)
  rwa [if_neg (by omega)] at key

theorem stepHeatInc_ne (c h : Nat) (h1 : 13 ≤ h) (h2 : h ≤ 27) (hlt : c < h) :
    progressNextState STATES_HEATING_THRESHOLD_TEMPERATURE
      SIZE_DIRECTION_HEATING_THRESHOLD_TEMPERATURE c 1 false ≠ c := by
  have key := stepHeat_ne c h h1 h2 (by omega)
  rwa [if_pos hlt] at key

theorem stepHeatDec_ne (c h : Nat) (h1 : 13 ≤ h) (h2 : h ≤ 27) (hgt : h < c) :
    progressNextState STATES_HEATING_THRESHOLD_TEMPERATURE
      SIZE_DIRECTION_HEATING_THRESHOLD_TEMPERATURE c (-1) false ≠ c := by
  have key := stepHeat_ne c h h1 h2 (by omega)
  rwa [if_neg (by omega)] at key

/-! ## Claim C1 -/

/-- C1 counterexample: with confirmed power Inactive and everything but swing
equal, `tickTaskSM` returns `true` although the swing field still mismatches —
so "returns true iff every field matches" is false as stated. -/
theorem tickTaskSM_true_despite_swing_mismatch :
    (tickTaskSM ⟨0, 2, 20, 16, 1⟩ ⟨0, 2, 20, 16, 0⟩).hasConverged = true ∧
    ¬((⟨0, 2, 20, 16, 1⟩ : HKValues).hkSwingMode = (⟨0, 2, 20, 16, 0⟩ : SMState).smSwingMode) ∧
    hkInRanges ⟨0, 2, 20, 16, 1⟩ ∧ validSM ⟨0, 2, 20, 16, 0⟩ := by
  decide

/-- C1 (amended): `tickTaskSM` returns `true` iff power and target mode match
and, whenever confirmed power is Active and confirmed mode is not Auto, the
mode-owned setpoint (cooling under Cool, heating under Heat) and swing also
match; and whenever it returns `true` it performs no action at all (no
confirmed-state change, no EEPROM write, no IR emission, no facade push). -/
theorem tickTaskSM_true_iff_reachable_converged (hk : HKValues) (s : SMState) :
    ((tickTaskSM hk s).hasConverged = true ↔
      (hk.hkActive = s.smActive ∧
       hk.hkTargetHeaterCoolerState = s.smTargetHeaterCoolerState ∧
       (s.smActive = ACTIVE_ACTIVE ∧ TARGET_HEATER_COOLER_STATE_AUTO < s.smTargetHeaterCoolerState →
         (s.smTargetHeaterCoolerState = TARGET_HEATER_COOLER_STATE_COOL →
           hk.hkCoolingThresholdTemperature = s.smCoolingThresholdTemperature) ∧
         (s.smTargetHeaterCoolerState = TARGET_HEATER_COOLER_STATE_HEAT →
           hk.hkHeatingThresholdTemperature = s.smHeatingThresholdTemperature) ∧
         hk.hkSwingMode = s.smSwingMode))) ∧
    ((tickTaskSM hk s).hasConverged = false ∨
      ((tickTaskSM hk s).state = s ∧ (tickTaskSM hk s).writes = [] ∧
       (tickTaskSM hk s).signals = [] ∧ (tickTaskSM hk s).currentModePush = none)) := by
  unfold tickTaskSM
  split_ifs with h1 h2 h3 h4 h5 h6 <;> simp_all

/-- C1 witness: at a fully matched configuration the amended iff yields
`true` and the tick leaves the state untouched. -/
theorem tickTaskSM_true_iff_reachable_converged_witness :
    (tickTaskSM ⟨1, 2, 24, 16, 1⟩ ⟨1, 2, 24, 16, 1⟩).hasConverged = true ∧
    (tickTaskSM ⟨1, 2, 24, 16, 1⟩ ⟨1, 2, 24, 16, 1⟩).state = ⟨1, 2, 24, 16, 1⟩ :=
  have h := tickTaskSM_true_iff_reachable_converged ⟨1, 2, 24, 16, 1⟩ ⟨1, 2, 24, 16, 1⟩
  ⟨h.1.mpr (by decide), (h.2.resolve_left (by decide)).1⟩

/-! ## Claim C2 -/

/-- C2 counterexample: desired and confirmed differ on two fields (cooling
setpoint and swing) with both configurations in range, yet one `tickTaskSM`
call changes no confirmed field and emits no signal (confirmed power is
Inactive, so the mismatched tiers are gated off and the call returns true). -/
theorem tickTaskSM_no_action_despite_two_mismatches :
    2 ≤ countMismatches ⟨0, 2, 24, 16, 0⟩ ⟨0, 2, 20, 16, 1⟩ ∧
    hkInRanges ⟨0, 2, 24, 16, 0⟩ ∧ validSM ⟨0, 2, 20, 16, 1⟩ ∧
    (tickTaskSM ⟨0, 2, 24, 16, 0⟩ ⟨0, 2, 20, 16, 1⟩).state = ⟨0, 2, 20, 16, 1⟩ ∧
    (tickTaskSM ⟨0, 2, 24, 16, 0⟩ ⟨0, 2, 20, 16, 1⟩).signals = [] ∧
    (tickTaskSM ⟨0, 2, 24, 16, 0⟩ ⟨0, 2, 20, 16, 1⟩).hasConverged = true := by
  decide

/-- C2 (amended): with the desired values in their declared ranges and two or
more mismatched fields, one `tickTaskSM` call either performs no action and
returns true (every mismatched tier gated off by confirmed power/mode), or
changes exactly one confirmed field and emits exactly one signal, chosen by
the fixed priority order power > target mode > cooling setpoint > heating
setpoint > swing (first reachable mismatch wins, immediate return with false);
all other confirmed fields are unchanged by that call. -/
theorem tickTaskSM_single_field (hk : HKValues) (s : SMState)
    (hr : hkInRanges hk) (h2 : 2 ≤ countMismatches hk s) :
    ((tickTaskSM hk s).hasConverged = false →
      changedFieldCount s (tickTaskSM hk s).state = 1 ∧ (tickTaskSM hk s).signals.length = 1) ∧
    ((tickTaskSM hk s).hasConverged = true →
      (tickTaskSM hk s).state = s ∧ (tickTaskSM hk s).signals = []) ∧
    (hk.hkActive ≠ s.smActive →
      (tickTaskSM hk s).signals = [IRAction.switchPower] ∧
      (tickTaskSM hk s).state.smActive ≠ s.smActive ∧
      (tickTaskSM hk s).state.smTargetHeaterCoolerState = s.smTargetHeaterCoolerState ∧
      (tickTaskSM hk s).state.smCoolingThresholdTemperature = s.smCoolingThresholdTemperature ∧
      (tickTaskSM hk s).state.smHeatingThresholdTemperature = s.smHeatingThresholdTemperature ∧
      (tickTaskSM hk s).state.smSwingMode = s.smSwingMode) ∧
    (hk.hkActive = s.smActive → hk.hkTargetHeaterCoolerState ≠ s.smTargetHeaterCoolerState →
      (tickTaskSM hk s).signals = [IRAction.switchMode] ∧
      (tickTaskSM hk s).state.smActive = s.smActive ∧
      (tickTaskSM hk s).state.smTargetHeaterCoolerState ≠ s.smTargetHeaterCoolerState ∧
      (tickTaskSM hk s).state.smCoolingThresholdTemperature = s.smCoolingThresholdTemperature ∧
      (tickTaskSM hk s).state.smHeatingThresholdTemperature = s.smHeatingThresholdTemperature ∧
      (tickTaskSM hk s).state.smSwingMode = s.smSwingMode) ∧
    (hk.hkActive = s.smActive → hk.hkTargetHeaterCoolerState = s.smTargetHeaterCoolerState →
      s.smActive = ACTIVE_ACTIVE → TARGET_HEATER_COOLER_STATE_AUTO < s.smTargetHeaterCoolerState →
      s.smTargetHeaterCoolerState = TARGET_HEATER_COOLER_STATE_COOL →
      hk.hkCoolingThresholdTemperature ≠ s.smCoolingThresholdTemperature →
      ((tickTaskSM hk s).signals = [IRAction.coolIncrease] ∨
        (tickTaskSM hk s).signals = [IRAction.coolDecrease]) ∧
      (tickTaskSM hk s).state.smActive = s.smActive ∧
      (tickTaskSM hk s).state.smTargetHeaterCoolerState = s.smTargetHeaterCoolerState ∧
      (tickTaskSM hk s).state.smCoolingThresholdTemperature ≠ s.smCoolingThresholdTemperature ∧
      (tickTaskSM hk s).state.smHeatingThresholdTemperature = s.smHeatingThresholdTemperature ∧
      (tickTaskSM hk s).state.smSwingMode = s.smSwingMode) ∧
    (hk.hkActive = s.smActive → hk.hkTargetHeaterCoolerState = s.smTargetHeaterCoolerState →
      s.smActive = ACTIVE_ACTIVE → TARGET_HEATER_COOLER_STATE_AUTO < s.smTargetHeaterCoolerState →
      s.smTargetHeaterCoolerState = TARGET_HEATER_COOLER_STATE_HEAT →
      hk.hkHeatingThresholdTemperature ≠ s.smHeatingThresholdTemperature →
      ((tickTaskSM hk s).signals = [IRAction.heatIncrease] ∨
        (tickTaskSM hk s).signals = [IRAction.heatDecrease]) ∧
      (tickTaskSM hk s).state.smActive = s.smActive ∧
      (tickTaskSM hk s).state.smTargetHeaterCoolerState = s.smTargetHeaterCoolerState ∧
      (tickTaskSM hk s).state.smCoolingThresholdTemperature = s.smCoolingThresholdTemperature ∧
      (tickTaskSM hk s).state.smHeatingThresholdTemperature ≠ s.smHeatingThresholdTemperature ∧
      (tickTaskSM hk s).state.smSwingMode = s.smSwingMode) ∧
    (hk.hkActive = s.smActive → hk.hkTargetHeaterCoolerState = s.smTargetHeaterCoolerState →
      s.smActive = ACTIVE_ACTIVE → TARGET_HEATER_COOLER_STATE_AUTO < s.smTargetHeaterCoolerState →
      (s.smTargetHeaterCoolerState = TARGET_HEATER_COOLER_STATE_COOL →
        hk.hkCoolingThresholdTemperature = s.smCoolingThresholdTemperature) →
      (s.smTargetHeaterCoolerState = TARGET_HEATER_COOLER_STATE_HEAT →
        hk.hkHeatingThresholdTemperature = s.smHeatingThresholdTemperature) →
      hk.hkSwingMode ≠ s.smSwingMode →
      (tickTaskSM hk s).signals = [IRAction.toggleSwing] ∧
      (tickTaskSM hk s).state.smActive = s.smActive ∧
      (tickTaskSM hk s).state.smTargetHeaterCoolerState = s.smTargetHeaterCoolerState ∧
      (tickTaskSM hk s).state.smCoolingThresholdTemperature = s.smCoolingThresholdTemperature ∧
      (tickTaskSM hk s).state.smHeatingThresholdTemperature = s.smHeatingThresholdTemperature ∧
      (tickTaskSM hk s).state.smSwingMode ≠ s.smSwingMode) := by
  obtain ⟨hr1, hr2, hr3, hr4, hr5, hr6, hr7⟩ := hr
  simp only [RANGE_TEMPERATURE_COOL_MINIMUM, RANGE_TEMPERATURE_COOL_MAXIMUM,
    RANGE_TEMPERATURE_HEAT_MINIMUM, RANGE_TEMPERATURE_HEAT_MAXIMUM,
    TARGET_HEATER_COOLER_STATE_COOL] at hr2 hr3 hr4 hr5 hr6
  unfold tickTaskSM
  split_ifs with h1 h2' h3 h4 h5 h6 h7 h8 <;>
    simp_all [changedFieldCount, stepActive_ne, stepMode_ne, stepSwing_ne,
      stepActive_ne_symm, stepMode_ne_symm, stepSwing_ne_symm]
  · exact ⟨fun hc => stepCoolInc_ne _ _ hr3 hr4 h5 hc.symm,
      stepCoolInc_ne _ _ hr3 hr4 h5, fun hh => absurd hh (by decide)⟩
  · exact ⟨fun hc => stepCoolDec_ne _ _ hr3 hr4 (by omega) hc.symm,
      stepCoolDec_ne _ _ hr3 hr4 (by omega), fun hh => absurd hh (by decide)⟩
  · exact ⟨fun hc => stepHeatInc_ne _ _ hr5 hr6 (by omega) hc.symm,
      stepHeatInc_ne _ _ hr5 hr6 (by omega)⟩
  · exact ⟨fun hc => stepHeatDec_ne _ _ hr5 hr6 (by omega) hc.symm,
      stepHeatDec_ne _ _ hr5 hr6 (by omega)⟩

/-- C2 witness: with power and cooling mismatched, the tick changes exactly
one field (power, by priority) and emits exactly the power-toggle signal. -/
theorem tickTaskSM_single_field_witness :
    changedFieldCount ⟨0, 2, 20, 16, 1⟩ (tickTaskSM ⟨1, 2, 24, 16, 1⟩ ⟨0, 2, 20, 16, 1⟩).state = 1 ∧
    (tickTaskSM ⟨1, 2, 24, 16, 1⟩ ⟨0, 2, 20, 16, 1⟩).signals = [IRAction.switchPower] :=
  have h := tickTaskSM_single_field ⟨1, 2, 24, 16, 1⟩ ⟨0, 2, 20, 16, 1⟩ (by decide) (by decide)
  ⟨(h.1 (by decide)).1, (h.2.2.1 (by decide)).1⟩

/-! ## Claim C3 -/

/-- C3: boundary behaviour of `progressNextState`.  Stepping `+1` past the
last index wraps to `sequence[0]` (circle) or saturates at `sequence[last]`
(clamp) exactly as specified; but stepping `-1` before index 0 misbehaves:
because `nextStateIndex` is an `unsigned int`, the index underflows to a huge
value, takes the overflow branch, and yields `sequence[0]` under wrap (the
spec says `sequence[last]`) and `sequence[last]` under clamp (the spec says
`sequence[0]`) — the source's `nextStateIndex < 0` branch is dead code. -/
theorem progressNextState_underflow_behavior :
    progressNextState STATES_DIRECTION_ACTIVE SIZE_DIRECTION_ACTIVE ACTIVE_ACTIVE 1 true
      = ACTIVE_INACTIVE ∧
    progressNextState STATES_COOLING_THRESHOLD_TEMPERATURE
      SIZE_DIRECTION_COOLING_THRESHOLD_TEMPERATURE 32 1 false = 32 ∧
    progressNextState STATES_DIRECTION_ACTIVE SIZE_DIRECTION_ACTIVE ACTIVE_INACTIVE (-1) true
      = ACTIVE_INACTIVE ∧
    progressNextState STATES_COOLING_THRESHOLD_TEMPERATURE
      SIZE_DIRECTION_COOLING_THRESHOLD_TEMPERATURE 18 (-1) false = 32 := by
  decide

/-! ## Claim C4 -/

/-- C4: a cooling-setpoint temperature signal is emitted only while confirmed
target mode is Cool, and a heating-setpoint temperature signal only while
confirmed target mode is Heat; no setpoint signal is ever emitted under any
other confirmed mode, even when that setpoint mismatches. -/
theorem setpoint_signal_only_in_owning_mode (hk : HKValues) (s : SMState) :
    (IRAction.coolIncrease ∈ (tickTaskSM hk s).signals ∨
        IRAction.coolDecrease ∈ (tickTaskSM hk s).signals →
      s.smTargetHeaterCoolerState = TARGET_HEATER_COOLER_STATE_COOL) ∧
    (IRAction.heatIncrease ∈ (tickTaskSM hk s).signals ∨
        IRAction.heatDecrease ∈ (tickTaskSM hk s).signals →
      s.smTargetHeaterCoolerState = TARGET_HEATER_COOLER_STATE_HEAT) := by
  unfold tickTaskSM
  split_ifs with h1 h2 h3 h4 h5 h6 h7 h8 <;> simp_all

/-- C4 witness: a tick that emits a cooling increase has confirmed mode Cool,
and a tick that emits a heating increase has confirmed mode Heat. -/
theorem setpoint_signal_only_in_owning_mode_witness :
    (⟨1, 2, 20, 16, 1⟩ : SMState).smTargetHeaterCoolerState = TARGET_HEATER_COOLER_STATE_COOL ∧
    (⟨1, 1, 20, 16, 1⟩ : SMState).smTargetHeaterCoolerState = TARGET_HEATER_COOLER_STATE_HEAT :=
  ⟨(setpoint_signal_only_in_owning_mode ⟨1, 2, 24, 16, 1⟩ ⟨1, 2, 20, 16, 1⟩).1
      (Or.inl (by decide)),
   (setpoint_signal_only_in_owning_mode ⟨1, 1, 20, 20, 1⟩ ⟨1, 1, 20, 16, 1⟩).2
      (Or.inl (by decide))⟩

/-! ## Claim C5 -/

/-- C5: an `update()` notification at time `now` sets the converge task's
next-due time to `now + SM_WAKE_UP_EVERY_MILLISECONDS` (the long interval),
touches no confirmed field, reports success, keeps postponing under repeated
notifications, and never makes a converge tick due earlier than it already
was (assuming the modelled non-wrapping clock regime and the delay being one
of the two scheduler intervals, both at most the long interval). -/
theorem update_postpones_converge (svc : ServiceState) (now t : Nat)
    (hlast : svc.lastLoopSMMillis ≤ now)
    (hdelay : svc.delayLoopSMMillis ≤ SM_WAKE_UP_EVERY_MILLISECONDS) :
    smNextDue (update svc now).1 = now + SM_WAKE_UP_EVERY_MILLISECONDS ∧
    (update svc now).1.sm = svc.sm ∧
    (update svc now).2 = true ∧
    (∀ later : Nat,
      smNextDue (update (update svc now).1 later).1 = later + SM_WAKE_UP_EVERY_MILLISECONDS) ∧
    (smTickDueAt (update svc now).1 t → smTickDueAt svc t) := by
  refine ⟨rfl, rfl, rfl, fun later => rfl, ?_⟩
  intro h
  unfold smTickDueAt update SM_WAKE_UP_EVERY_MILLISECONDS at *
  simp only at h ⊢
  omega

/-- C5 witness: a service that was about to converge (short interval, last
tick at 0) gets pushed out to `now + 1000` by an update at `now = 50`, and a
time at which the updated scheduler is due was already due before. -/
theorem update_postpones_converge_witness :
    smNextDue (update ⟨0, 100, ⟨0, 2, 20, 16, 1⟩⟩ 50).1 = 50 + SM_WAKE_UP_EVERY_MILLISECONDS ∧
    (update ⟨0, 100, ⟨0, 2, 20, 16, 1⟩⟩ 50).1.sm = ⟨0, 2, 20, 16, 1⟩ ∧
    smTickDueAt ⟨0, 100, ⟨0, 2, 20, 16, 1⟩⟩ 2000 :=
  have h := update_postpones_converge ⟨0, 100, ⟨0, 2, 20, 16, 1⟩⟩ 50 2000
    (by decide) (by decide)
  ⟨h.1, h.2.1, h.2.2.2.2 (by decide)⟩

/-! ## Claim C6 -/

/-- A persisted store whose bytes are each either the erase sentinel or an
element of the corresponding field's sequence (as produced by the engine's
own `writeEEPROM` calls, which only store sequence elements). -/
def goodStore (e : Nat → Nat) : Prop :=
  (e EEPROM_ADDRESS_SM_ACTIVE = 255 ∨
    e EEPROM_ADDRESS_SM_ACTIVE ∈ STATES_DIRECTION_ACTIVE) ∧
  (e EEPROM_ADDRESS_SM_TARGET_HEATER_COOLER_STATE = 255 ∨
    e EEPROM_ADDRESS_SM_TARGET_HEATER_COOLER_STATE ∈ STATES_DIRECTION_TARGET_HEATER_COOLER_STATE) ∧
  (e EEPROM_ADDRESS_SM_COOLING_THRESHOLD_TEMPERATURE = 255 ∨
    e EEPROM_ADDRESS_SM_COOLING_THRESHOLD_TEMPERATURE ∈ STATES_COOLING_THRESHOLD_TEMPERATURE) ∧
  (e EEPROM_ADDRESS_SM_HEATING_THRESHOLD_TEMPERATURE = 255 ∨
    e EEPROM_ADDRESS_SM_HEATING_THRESHOLD_TEMPERATURE ∈ STATES_HEATING_THRESHOLD_TEMPERATURE) ∧
  (e EEPROM_ADDRESS_SM_SWING_MODE = 255 ∨
    e EEPROM_ADDRESS_SM_SWING_MODE ∈ STATES_SWING_MODE)

instance (e : Nat → Nat) : Decidable (goodStore e) := by
  unfold goodStore; infer_instance

/-- A store with a garbage (non-sentinel, out-of-sequence) byte, as C6's
counterexample input. -/
def garbageStore : Nat → Nat :=
  fun a => if a = EEPROM_ADDRESS_SM_ACTIVE then 7 else 255

/-- C6 counterexample: `initializeStateMachineValues` loads a stored byte `7`
for the power field verbatim, and `7` is not an element of the power
sequence — so startup alone does not establish the membership invariant for
an arbitrary EEPROM image. -/
theorem initializeStateMachineValues_garbage_byte :
    (initializeStateMachineValues garbageStore).smActive = 7 ∧
    ¬ validSM (initializeStateMachineValues garbageStore) := by
  decide

/-- Every `tickTaskSM` call keeps each confirmed field inside its sequence. -/
theorem validSM_tick_preserved (hk : HKValues) (s : SMState) (hv : validSM s) :
    validSM (tickTaskSM hk s).state := by
  obtain ⟨v1, v2, v3, v4, v5⟩ := hv
  unfold tickTaskSM
  split_ifs <;>
    refine ⟨?_, ?_, ?_, ?_, ?_⟩ <;>
    first
      | assumption
      | exact progressNextState_mem _ _ _ _ _ (by decide) (by decide)

/-- C6 (amended): the membership invariant (every confirmed field an element
of its sequence) is established at startup provided each persisted byte is
either the erase sentinel 255 or itself an element of the field's sequence
(true of every store the engine has written, since it only persists stepped
sequence elements), and it is preserved unconditionally by every
`tickTaskSM` call. -/
theorem validSM_established_and_preserved :
    (∀ e : Nat → Nat, goodStore e → validSM (initializeStateMachineValues e)) ∧
    (∀ (hk : HKValues) (s : SMState), validSM s → validSM (tickTaskSM hk s).state) := by
  constructor
  · intro e he
    obtain ⟨g1, g2, g3, g4, g5⟩ := he
    refine ⟨?_, ?_, ?_, ?_, ?_⟩ <;>
      simp only [initializeStateMachineValues, readEEPROMOrDefault] <;>
      split_ifs <;> simp_all <;> decide
  · exact validSM_tick_preserved

/-- C6 witness: a fresh (all-sentinel) store establishes the invariant at
startup, and a tick from a valid state preserves it. -/
theorem validSM_established_and_preserved_witness :
    validSM (initializeStateMachineValues (fun _ => 255)) ∧
    validSM (tickTaskSM ⟨1, 2, 24, 16, 1⟩ ⟨0, 2, 20, 16, 1⟩).state :=
  ⟨validSM_established_and_preserved.1 (fun _ => 255) (by decide),
   validSM_established_and_preserved.2 ⟨1, 2, 24, 16, 1⟩ ⟨0, 2, 20, 16, 1⟩ (by decide)⟩

/-! ## Claim C7 -/

/-- C7: `readEEPROMOrDefault` returns the compiled-in default exactly when the
stored byte is the erase sentinel 255 and the stored byte itself otherwise;
consequently a never-written store (every byte 255) loads every field as its
compiled default at startup. -/
theorem readEEPROMOrDefault_sentinel_spec (e : Nat → Nat) (a d : Nat) :
    (e a = 255 → readEEPROMOrDefault e a d = d) ∧
    (e a ≠ 255 → readEEPROMOrDefault e a d = e a) ∧
    initializeStateMachineValues (fun _ => 255) =
      ⟨DEFAULT_ACTIVE, DEFAULT_TARGET_HEATER_COOLER_STATE, DEFAULT_THRESHOLD_TEMPERATURE,
       DEFAULT_THRESHOLD_TEMPERATURE, DEFAULT_SWING_MODE⟩ := by
  refine ⟨fun h => ?_, fun h => ?_, by decide⟩ <;> simp [readEEPROMOrDefault, h]

/-- C7 witness: a sentinel byte loads the default, a non-sentinel byte loads
itself. -/
theorem readEEPROMOrDefault_sentinel_spec_witness :
    readEEPROMOrDefault (fun _ => 255) 0 3 = 3 ∧ readEEPROMOrDefault (fun _ => 7) 0 3 = 7 :=
  ⟨(readEEPROMOrDefault_sentinel_spec (fun _ => 255) 0 3).1 rfl,
   (readEEPROMOrDefault_sentinel_spec (fun _ => 7) 0 3).2.1 (by decide)⟩

/-! ## Claim C8 -/

/-- C8 counterexample: in the spec's scenario the tick that raises the
confirmed cooling setpoint to 24 is tick 5, and it returns `false` (an action
tick always returns false); only tick 6 returns `true` — the claim's "tick5
... returns true" is off by one. -/
theorem scenario_tick5_returns_false :
    (tickStates ⟨1, 2, 24, 16, 1⟩ ⟨0, 2, 20, 16, 1⟩ 5).smCoolingThresholdTemperature = 24 ∧
    (tickTaskSM ⟨1, 2, 24, 16, 1⟩
      (tickStates ⟨1, 2, 24, 16, 1⟩ ⟨0, 2, 20, 16, 1⟩ 4)).hasConverged = false := by
  decide

/-- C8 (amended): from confirmed {Inactive, Cool, 20, 16, Enabled} and desired
{Active, Cool, 24, 16, Enabled}: tick 1 emits the power toggle, sets power to
Active and returns false; ticks 2–5 each emit temperature-increase and raise
the confirmed cooling setpoint by one degree (21, 22, 23, 24), each returning
false; tick 6 performs no action and returns true. -/
theorem scenario_trace :
    (tickTaskSM ⟨1, 2, 24, 16, 1⟩ ⟨0, 2, 20, 16, 1⟩).signals = [IRAction.switchPower] ∧
    tickStates ⟨1, 2, 24, 16, 1⟩ ⟨0, 2, 20, 16, 1⟩ 1 = ⟨1, 2, 20, 16, 1⟩ ∧
    (tickTaskSM ⟨1, 2, 24, 16, 1⟩ ⟨0, 2, 20, 16, 1⟩).hasConverged = false ∧
    (tickTaskSM ⟨1, 2, 24, 16, 1⟩
        (tickStates ⟨1, 2, 24, 16, 1⟩ ⟨0, 2, 20, 16, 1⟩ 1)).signals = [IRAction.coolIncrease] ∧
    tickStates ⟨1, 2, 24, 16, 1⟩ ⟨0, 2, 20, 16, 1⟩ 2 = ⟨1, 2, 21, 16, 1⟩ ∧
    (tickTaskSM ⟨1, 2, 24, 16, 1⟩
        (tickStates ⟨1, 2, 24, 16, 1⟩ ⟨0, 2, 20, 16, 1⟩ 2)).signals = [IRAction.coolIncrease] ∧
    tickStates ⟨1, 2, 24, 16, 1⟩ ⟨0, 2, 20, 16, 1⟩ 3 = ⟨1, 2, 22, 16, 1⟩ ∧
    (tickTaskSM ⟨1, 2, 24, 16, 1⟩
        (tickStates ⟨1, 2, 24, 16, 1⟩ ⟨0, 2, 20, 16, 1⟩ 3)).signals = [IRAction.coolIncrease] ∧
    tickStates ⟨1, 2, 24, 16, 1⟩ ⟨0, 2, 20, 16, 1⟩ 4 = ⟨1, 2, 23, 16, 1⟩ ∧
    (tickTaskSM ⟨1, 2, 24, 16, 1⟩
        (tickStates ⟨1, 2, 24, 16, 1⟩ ⟨0, 2, 20, 16, 1⟩ 4)).signals = [IRAction.coolIncrease] ∧
    (tickTaskSM ⟨1, 2, 24, 16, 1⟩
        (tickStates ⟨1, 2, 24, 16, 1⟩ ⟨0, 2, 20, 16, 1⟩ 4)).hasConverged = false ∧
    tickStates ⟨1, 2, 24, 16, 1⟩ ⟨0, 2, 20, 16, 1⟩ 5 = ⟨1, 2, 24, 16, 1⟩ ∧
    (tickTaskSM ⟨1, 2, 24, 16, 1⟩
        (tickStates ⟨1, 2, 24, 16, 1⟩ ⟨0, 2, 20, 16, 1⟩ 5)).hasConverged = true ∧
    tickStates ⟨1, 2, 24, 16, 1⟩ ⟨0, 2, 20, 16, 1⟩ 6 = ⟨1, 2, 24, 16, 1⟩ := by
  decide


/-! ## Claim C9: termination of the convergence loop -/


/-- Position of a mode value in the physical button-cycle order (proof helper). -/
def modeIdx (m : Nat) : Nat :=
  if m = TARGET_HEATER_COOLER_STATE_HEAT then 0
  else if m = TARGET_HEATER_COOLER_STATE_AUTO then 1
  else if m = TARGET_HEATER_COOLER_STATE_COOL then 2
  else if m = TARGET_HEATER_COOLER_STATE_UNMAPPED_1 then 3
  else 4

/-- Symmetric distance on naturals (proof helper). -/
def natDist (a b : Nat) : Nat := (a - b) + (b - a)

/-- Convergence potential: an upper bound on the corrective steps left. -/
def phi (hk : HKValues) (s : SMState) : Nat :=
  (if hk.hkActive = s.smActive then 0 else 1) +
  ((modeIdx hk.hkTargetHeaterCoolerState + 5 - modeIdx s.smTargetHeaterCoolerState) % 5) +
  natDist s.smCoolingThresholdTemperature hk.hkCoolingThresholdTemperature +
  natDist s.smHeatingThresholdTemperature hk.hkHeatingThresholdTemperature +
  (if hk.hkSwingMode = s.smSwingMode then 0 else 1)

theorem mem_active_of_le {a : Nat} (h : a ≤ 1) : a ∈ STATES_DIRECTION_ACTIVE := by
  interval_cases a <;> decide

theorem mem_swing_of_le {a : Nat} (h : a ≤ 1) : a ∈ STATES_SWING_MODE := by
  interval_cases a <;> decide

theorem mem_modes_of_le {a : Nat} (h : a ≤ 2) : a ∈ ([0, 1, 2] : List Nat) := by
  interval_cases a <;> decide

theorem active_step_exact : ∀ a ∈ STATES_DIRECTION_ACTIVE, ∀ b ∈ STATES_DIRECTION_ACTIVE,
    b ≠ a → progressNextState STATES_DIRECTION_ACTIVE SIZE_DIRECTION_ACTIVE a 1 true = b := by
  decide

theorem swing_step_exact : ∀ a ∈ STATES_SWING_MODE, ∀ b ∈ STATES_SWING_MODE,
    b ≠ a → progressNextState STATES_SWING_MODE SIZE_DIRECTION_SWING_MODE a 1 true = b := by
  decide

theorem mode_step_closer : ∀ m ∈ STATES_DIRECTION_TARGET_HEATER_COOLER_STATE,
    ∀ hm ∈ ([0, 1, 2] : List Nat), hm ≠ m →
    (modeIdx hm + 5 - modeIdx (progressNextState STATES_DIRECTION_TARGET_HEATER_COOLER_STATE
        SIZE_DIRECTION_TARGET_HEATER_COOLER_STATE m 1 true)) % 5 <
      (modeIdx hm + 5 - modeIdx m) % 5 := by
  decide

theorem cool_step_closer_inc : ∀ c ∈ STATES_COOLING_THRESHOLD_TEMPERATURE,
    ∀ h ∈ STATES_COOLING_THRESHOLD_TEMPERATURE, c < h →
    natDist (progressNextState STATES_COOLING_THRESHOLD_TEMPERATURE
        SIZE_DIRECTION_COOLING_THRESHOLD_TEMPERATURE c 1 false) h < natDist c h := by
  decide

theorem cool_step_closer_dec : ∀ c ∈ STATES_COOLING_THRESHOLD_TEMPERATURE,
    ∀ h ∈ STATES_COOLING_THRESHOLD_TEMPERATURE, h < c →
    natDist (progressNextState STATES_COOLING_THRESHOLD_TEMPERATURE
        SIZE_DIRECTION_COOLING_THRESHOLD_TEMPERATURE c (-1) false) h < natDist c h := by
  decide

theorem heat_step_closer_inc : ∀ c ∈ STATES_HEATING_THRESHOLD_TEMPERATURE,
    ∀ h ∈ STATES_HEATING_THRESHOLD_TEMPERATURE, c < h →
    natDist (progressNextState STATES_HEATING_THRESHOLD_TEMPERATURE
        SIZE_DIRECTION_HEATING_THRESHOLD_TEMPERATURE c 1 false) h < natDist c h := by
  decide

theorem heat_step_closer_dec : ∀ c ∈ STATES_HEATING_THRESHOLD_TEMPERATURE,
    ∀ h ∈ STATES_HEATING_THRESHOLD_TEMPERATURE, h < c →
    natDist (progressNextState STATES_HEATING_THRESHOLD_TEMPERATURE
        SIZE_DIRECTION_HEATING_THRESHOLD_TEMPERATURE c (-1) false) h < natDist c h := by
  decide

theorem tick_phi_decrease (hk : HKValues) (s : SMState)
    (hv : validSM s) (hr : hkInRanges hk)
    (hfalse : (tickTaskSM hk s).hasConverged = false) :
    phi hk (tickTaskSM hk s).state < phi hk s := by
  obtain ⟨v1, v2, v3, v4, v5⟩ := hv
  obtain ⟨hr1, hr2, hr3, hr4, hr5, hr6, hr7⟩ := hr
  simp only [RANGE_TEMPERATURE_COOL_MINIMUM, RANGE_TEMPERATURE_COOL_MAXIMUM,
    RANGE_TEMPERATURE_HEAT_MINIMUM, RANGE_TEMPERATURE_HEAT_MAXIMUM] at hr3 hr4 hr5 hr6
  unfold tickTaskSM at hfalse ⊢
  split_ifs at hfalse ⊢ with h1 h2 h3 h4 h5 h6 h7 h8
  · -- power branch
    have hstep := active_step_exact s.smActive v1 hk.hkActive (mem_active_of_le hr1) h1
    simp only [phi, hstep]
    simp [h1]
  · -- mode branch
    have hc := mode_step_closer s.smTargetHeaterCoolerState v2 hk.hkTargetHeaterCoolerState
      (mem_modes_of_le hr2) h2
    simp only [phi]
    simp
    omega
  · -- cooling increase
    have hc := cool_step_closer_inc s.smCoolingThresholdTemperature v3
      hk.hkCoolingThresholdTemperature (mem_cool_of_bounds hr3 hr4) h5
    simp only [phi]
    simp
    omega
  · -- cooling decrease
    have hc := cool_step_closer_dec s.smCoolingThresholdTemperature v3
      hk.hkCoolingThresholdTemperature (mem_cool_of_bounds hr3 hr4) (by omega)
    simp only [phi]
    simp
    omega
  · -- heating increase
    have hc := heat_step_closer_inc s.smHeatingThresholdTemperature v4
      hk.hkHeatingThresholdTemperature (mem_heat_of_bounds hr5 hr6) h7
    simp only [phi]
    simp
    omega
  · -- heating decrease
    have hc := heat_step_closer_dec s.smHeatingThresholdTemperature v4
      hk.hkHeatingThresholdTemperature (mem_heat_of_bounds hr5 hr6) (by omega)
    simp only [phi]
    simp
    omega
  · -- swing branch
    have hstep := swing_step_exact s.smSwingMode v5 hk.hkSwingMode (mem_swing_of_le hr7) h8
    simp only [phi, hstep]
    simp [h8]


theorem modeIdx_le (m : Nat) : modeIdx m ≤ 4 := by
  unfold modeIdx
  split_ifs <;> omega

theorem modeIdx_inj_on : ∀ a ∈ STATES_DIRECTION_TARGET_HEATER_COOLER_STATE,
    ∀ b ∈ ([0, 1, 2] : List Nat), modeIdx b = modeIdx a → b = a := by
  decide

theorem cool_seq_bounds : ∀ x ∈ STATES_COOLING_THRESHOLD_TEMPERATURE, 18 ≤ x ∧ x ≤ 32 := by
  decide

theorem heat_seq_bounds : ∀ x ∈ STATES_HEATING_THRESHOLD_TEMPERATURE, 13 ≤ x ∧ x ≤ 27 := by
  decide

theorem phi_zero_converged (hk : HKValues) (s : SMState)
    (hv : validSM s) (hr : hkInRanges hk) (h0 : phi hk s = 0) :
    (tickTaskSM hk s).hasConverged = true := by
  obtain ⟨v1, v2, v3, v4, v5⟩ := hv
  obtain ⟨hr1, hr2, hr3, hr4, hr5, hr6, hr7⟩ := hr
  simp only [phi, natDist] at h0
  have hA : hk.hkActive = s.smActive := by
    by_cases h : hk.hkActive = s.smActive
    · exact h
    · simp [h] at h0
  have hM : hk.hkTargetHeaterCoolerState = s.smTargetHeaterCoolerState := by
    have b1 := modeIdx_le hk.hkTargetHeaterCoolerState
    have b2 := modeIdx_le s.smTargetHeaterCoolerState
    have hidx : modeIdx hk.hkTargetHeaterCoolerState = modeIdx s.smTargetHeaterCoolerState := by
      omega
    exact modeIdx_inj_on s.smTargetHeaterCoolerState v2 hk.hkTargetHeaterCoolerState
      (mem_modes_of_le hr2) hidx
  have hC : hk.hkCoolingThresholdTemperature = s.smCoolingThresholdTemperature := by omega
  have hH : hk.hkHeatingThresholdTemperature = s.smHeatingThresholdTemperature := by omega
  have hS : hk.hkSwingMode = s.smSwingMode := by
    by_cases h : hk.hkSwingMode = s.smSwingMode
    · exact h
    · simp [h] at h0
  unfold tickTaskSM
  split_ifs with h1 h2 h3 h4 h5 h6 <;> simp_all

theorem tickStates_shift (hk : HKValues) (s : SMState) :
    ∀ n, tickStates hk s (n + 1) = tickStates hk ((tickTaskSM hk s).state) n := by
  intro n
  induction n with
  | zero => rfl
  | succ n ih =>
    show (tickTaskSM hk (tickStates hk s (n + 1))).state = _
    rw [ih]
    rfl

theorem converge_aux : ∀ k (hk : HKValues) (s : SMState), validSM s → hkInRanges hk →
    phi hk s ≤ k →
    ∃ n, n ≤ k ∧ (tickTaskSM hk (tickStates hk s n)).hasConverged = true := by
  intro k
  induction k with
  | zero =>
    intro hk s hv hr hphi
    exact ⟨0, le_refl 0, phi_zero_converged hk s hv hr (by omega)⟩
  | succ k ih =>
    intro hk s hv hr hphi
    by_cases hc : (tickTaskSM hk s).hasConverged = true
    · exact ⟨0, Nat.zero_le _, hc⟩
    · have hfalse : (tickTaskSM hk s).hasConverged = false := by
        revert hc
        cases (tickTaskSM hk s).hasConverged <;> simp
      have hdec := tick_phi_decrease hk s hv hr hfalse
      have hv' := validSM_tick_preserved hk s hv
      obtain ⟨n, hn, hconv⟩ := ih hk (tickTaskSM hk s).state hv' hr (by omega)
      refine ⟨n + 1, by omega, ?_⟩
      rw [tickStates_shift]
      exact hconv

theorem phi_le_34 (hk : HKValues) (s : SMState) (hv : validSM s) (hr : hkInRanges hk) :
    phi hk s ≤ 34 := by
  obtain ⟨v1, v2, v3, v4, v5⟩ := hv
  obtain ⟨hr1, hr2, hr3, hr4, hr5, hr6, hr7⟩ := hr
  simp only [RANGE_TEMPERATURE_COOL_MINIMUM, RANGE_TEMPERATURE_COOL_MAXIMUM,
    RANGE_TEMPERATURE_HEAT_MINIMUM, RANGE_TEMPERATURE_HEAT_MAXIMUM] at hr3 hr4 hr5 hr6
  have b1 := cool_seq_bounds s.smCoolingThresholdTemperature v3
  have b2 := heat_seq_bounds s.smHeatingThresholdTemperature v4
  have b3 := modeIdx_le hk.hkTargetHeaterCoolerState
  have b4 := modeIdx_le s.smTargetHeaterCoolerState
  simp only [phi, natDist]
  split_ifs <;> omega



/-- C9: from any confirmed state whose fields lie in their sequences and any
fixed desired configuration within the declared characteristic ranges,
iterating `tickTaskSM` reaches a call that returns `true` within at most 35
calls (the potential `phi` is at most 34 and strictly decreases on every
false tick). -/
theorem tickTaskSM_converges_within_35 (hk : HKValues) (s : SMState)
    (hv : validSM s) (hr : hkInRanges hk) :
    ∃ n : Nat, n + 1 ≤ 35 ∧ (tickTaskSM hk (tickStates hk s n)).hasConverged = true := by
  obtain ⟨n, hn, h⟩ := converge_aux 34 hk s hv hr (phi_le_34 hk s hv hr)
  exact ⟨n, by omega, h⟩

/-- C9 witness: the C8 scenario converges within 35 ticks. -/
theorem tickTaskSM_converges_within_35_witness :
    validSM ⟨0, 2, 20, 16, 1⟩ ∧ hkInRanges ⟨1, 2, 24, 16, 1⟩ ∧
    ∃ n : Nat, n + 1 ≤ 35 ∧
      (tickTaskSM ⟨1, 2, 24, 16, 1⟩
        (tickStates ⟨1, 2, 24, 16, 1⟩ ⟨0, 2, 20, 16, 1⟩ n)).hasConverged = true :=
  ⟨by decide, by decide, tickTaskSM_converges_within_35 _ _ (by decide) (by decide)⟩

end ACRemote

namespace WaterTank

/-! ## Sprinkler-tank water-level probe

Embedding of the water-level sensor (`WaterTankLevelSensor`).  C `float`
arithmetic is modelled exactly over `ℚ` (the literal `29.1` becomes
`291/10`); the claims at stake (sample count, clamping, sorting, median
selection, range of the result) do not depend on binary rounding.  Raw echo
durations (`pulseIn` results) are an environment input, one per loop
iteration. -/

def WATER_TANK_SENSOR_OFFSET_DISTANCE : ℚ := 1
def WATER_TANK_FILL_EMPTY_DISTANCE : ℚ := 28
def WATER_LEVEL_PROBE_SAMPLES : Nat := 10

/-- `probeWaterLevelSample`, as a function of the acquired echo duration
(the `sampleIndex` argument of the source only feeds a log line).  A zero
duration is the failure path and yields `0.0`. -/
def probeWaterLevelSample (durationSample : Nat) : ℚ :=
  if durationSample = 0 then 0
  else
    let distanceSample : ℚ := ((durationSample : ℚ) / 2) / (291 / 10)
    let distanceSample2 := distanceSample - WATER_TANK_SENSOR_OFFSET_DISTANCE
    100 - max 0 (min ((distanceSample2 / WATER_TANK_FILL_EMPTY_DISTANCE) * 100) 100)

/-- C array read `values[k]` over the list model.  Out-of-bounds reads are
undefined behaviour in the source; the model returns `0` there (the proofs
establish that every read the source performs is in bounds). -/
def readAt (values : List ℚ) (k : Int) : ℚ :=
  if 0 ≤ k then values.getD k.toNat 0 else 0

/-- C array write `values[k] = v` over the list model; out-of-bounds writes
(undefined behaviour in the source, never executed under the proved
invariants) leave the list unchanged. -/
def writeAt (values : List ℚ) (k : Int) (v : ℚ) : List ℚ :=
  if 0 ≤ k then values.set k.toNat v else values

/-- The inner `while (values[i] < pivot) i++;` of `floatQuickSort`.  The
bounds test is the model's undefined-behaviour boundary: the source would
read past the array, the model stops. -/
def advanceI (values : List ℚ) (pivot : ℚ) (i : Int) : Int :=
  if h : 0 ≤ i ∧ i < (values.length : Int) ∧ readAt values i < pivot then
    advanceI values pivot (i + 1)
  else i
termination_by (values.length - i.toNat)
decreasing_by
  omega

/-- The inner `while (values[j] > pivot) j--;` of `floatQuickSort`, with the
same undefined-behaviour boundary at index `-1`. -/
def advanceJ (values : List ℚ) (pivot : ℚ) (j : Int) : Int :=
  if h : 0 ≤ j ∧ pivot < readAt values j then
    advanceJ values pivot (j - 1)
  else j
termination_by (j + 1).toNat
decreasing_by
  omega



theorem advanceI_ge (values : List ℚ) (pivot : ℚ) (i : Int) : i ≤ advanceI values pivot i := by
  rw [advanceI]
  split_ifs with h
  · have ih := advanceI_ge values pivot (i + 1)
    omega
  · omega
termination_by (values.length - i.toNat)
decreasing_by
  omega

theorem advanceJ_le (values : List ℚ) (pivot : ℚ) (j : Int) : advanceJ values pivot j ≤ j := by
  rw [advanceJ]
  split_ifs with h
  · have ih := advanceJ_le values pivot (j - 1)
    omega
  · omega
termination_by (j + 1).toNat
decreasing_by
  omega

/-- The partition `while (i <= j) { ... }` loop of `floatQuickSort`: advance
`i` and `j`, swap and step both when they have not crossed, repeat;
returns the final array and the final `i` and `j`. -/
def partitionLoop (values : List ℚ) (pivot : ℚ) (i j : Int) : List ℚ × Int × Int :=
  if hij : i ≤ j then
    let i1 := advanceI values pivot i
    let j1 := advanceJ values pivot j
    if hcross : i1 ≤ j1 then
      let tmp := readAt values i1
      let values1 := writeAt values i1 (readAt values j1)
      let values2 := writeAt values1 j1 tmp
      partitionLoop values2 pivot (i1 + 1) (j1 - 1)
    else (values, i1, j1)
  else (values, i, j)
termination_by (j - i + 1).toNat
decreasing_by
  have h1 := advanceI_ge values pivot i
  have h2 := advanceJ_le values pivot j
  omega



/-- `floatQuickSort(values, left, right)` with an explicit recursion-depth
fuel (the source recursion terminates because each partition strictly
shrinks the segment, as proved below; `floatQuickSortFuel_spec` shows a fuel
of the segment length suffices, and the only caller passes
`WATER_LEVEL_PROBE_SAMPLES`).  Running out of fuel returns the array as-is;
with sufficient fuel this never happens. -/
def floatQuickSortFuel : Nat → List ℚ → Int → Int → List ℚ
  | 0, values, _, _ => values
  | fuel + 1, values, left, right =>
    let pivot := readAt values ((left + right) / 2)
    let p := partitionLoop values pivot left right
    let values2 := if left < p.2.2 then floatQuickSortFuel fuel p.1 left p.2.2 else p.1
    if p.2.1 < right then floatQuickSortFuel fuel values2 p.2.1 right else values2

/-- `probeWaterLevel()`: acquire `WATER_LEVEL_PROBE_SAMPLES` samples (the
echo duration of loop iteration `i` is `durations i`), quick-sort them,
take `samples[WATER_LEVEL_PROBE_SAMPLES / 2 - 1]`, and round to an integer. -/
def probeWaterLevel (durations : Nat → Nat) : Nat :=
  let samples := (List.range WATER_LEVEL_PROBE_SAMPLES).map
    (fun nextSampleIndex => probeWaterLevelSample (durations nextSampleIndex))
  let sorted := floatQuickSortFuel WATER_LEVEL_PROBE_SAMPLES samples 0
    ((WATER_LEVEL_PROBE_SAMPLES : Int) - 1)
  let tickWaterLevelMedian := readAt sorted ((WATER_LEVEL_PROBE_SAMPLES : Int) / 2 - 1)
  (round tickWaterLevelMedian).toNat

/-! ### Array-model lemmas -/

theorem length_writeAt (l : List ℚ) (k : Int) (v : ℚ) : (writeAt l k v).length = l.length := by
  unfold writeAt
  split_ifs <;> simp

theorem readAt_writeAt_same (l : List ℚ) (k : Int) (v : ℚ)
    (h0 : 0 ≤ k) (hk : k < (l.length : Int)) : readAt (writeAt l k v) k = v := by
  unfold readAt writeAt
  rw [if_pos h0, if_pos h0, List.getD_eq_getElem _ 0 (by simp; omega), List.getElem_set_self]

theorem readAt_writeAt_ne (l : List ℚ) (k m : Int) (v : ℚ) (hne : m ≠ k) :
    readAt (writeAt l k v) m = readAt l m := by
  unfold readAt writeAt
  split_ifs with h1 h2 <;> try rfl
  by_cases hm : m.toNat < l.length
  · rw [List.getD_eq_getElem _ 0 (by simp [hm]), List.getD_eq_getElem _ 0 hm,
      List.getElem_set_ne (by omega)]
  · rw [List.getD_eq_default _ 0 (by simp; omega), List.getD_eq_default _ 0 (by omega)]

theorem readAt_neg (l : List ℚ) (k : Int) (h : k < 0) : readAt l k = 0 := by
  unfold readAt
  rw [if_neg (by omega)]

theorem readAt_oob (l : List ℚ) (k : Int) (h : (l.length : Int) ≤ k) : readAt l k = 0 := by
  unfold readAt
  split_ifs with h0
  · rw [List.getD_eq_default _ 0 (by omega)]
  · rfl



theorem advanceI_spec (values : List ℚ) (pivot : ℚ) (i k : Int)
    (h0 : 0 ≤ i) (hik : i ≤ k) (hk : k < (values.length : Int))
    (hstop : ¬ readAt values k < pivot) :
    i ≤ advanceI values pivot i ∧ advanceI values pivot i ≤ k ∧
    ¬ readAt values (advanceI values pivot i) < pivot ∧
    ∀ m : Int, i ≤ m → m < advanceI values pivot i → readAt values m < pivot := by
  rw [advanceI]
  split_ifs with h
  · obtain ⟨hx0, hxlen, hxlt⟩ := h
    have hik' : i + 1 ≤ k := by
      rcases eq_or_lt_of_le hik with rfl | hlt
      · exact absurd hxlt hstop
      · omega
    have ih := advanceI_spec values pivot (i + 1) k (by omega) hik' hk hstop
    refine ⟨by omega, ih.2.1, ih.2.2.1, ?_⟩
    intro m hm1 hm2
    rcases eq_or_lt_of_le hm1 with rfl | hlt
    · exact hxlt
    · exact ih.2.2.2 m (by omega) hm2
  · refine ⟨le_refl i, hik, ?_, fun m hm1 hm2 => absurd hm1 (by omega)⟩
    intro hcon
    exact h ⟨h0, by omega, hcon⟩
termination_by (values.length - i.toNat)
decreasing_by
  omega

theorem advanceJ_spec (values : List ℚ) (pivot : ℚ) (j k : Int)
    (hkj : k ≤ j) (hk0 : 0 ≤ k)
    (hstop : ¬ pivot < readAt values k) :
    k ≤ advanceJ values pivot j ∧ advanceJ values pivot j ≤ j ∧
    ¬ pivot < readAt values (advanceJ values pivot j) ∧
    ∀ m : Int, advanceJ values pivot j < m → m ≤ j → pivot < readAt values m := by
  rw [advanceJ]
  split_ifs with h
  · obtain ⟨hx0, hxgt⟩ := h
    have hkj' : k ≤ j - 1 := by
      rcases eq_or_lt_of_le hkj with rfl | hlt
      · exact absurd hxgt hstop
      · omega
    have ih := advanceJ_spec values pivot (j - 1) k hkj' hk0 hstop
    refine ⟨ih.1, by omega, ih.2.2.1, ?_⟩
    intro m hm1 hm2
    rcases eq_or_lt_of_le hm2 with rfl | hlt
    · exact hxgt
    · exact ih.2.2.2 m hm1 (by omega)
  · refine ⟨hkj, le_refl j, ?_, fun m hm1 hm2 => absurd hm1 (by omega)⟩
    intro hcon
    exact h ⟨by omega, hcon⟩
termination_by (j + 1).toNat
decreasing_by
  omega



theorem cons_set_perm (c : ℚ) :
    ∀ (t : List ℚ) (m : Nat), m < t.length → List.Perm (t.getD m 0 :: t.set m c) (c :: t) := by
  intro t
  induction t with
  | nil => intro m hm; simp at hm
  | cons x t2 ih =>
    intro m hm
    cases m with
    | zero => simpa using List.Perm.swap c x t2
    | succ m =>
      simp only [List.getD_cons_succ, List.set_cons_succ]
      refine List.Perm.trans (List.Perm.swap x (t2.getD m 0) (t2.set m c)) ?_
      refine List.Perm.trans (List.Perm.cons x (ih m (by simpa using hm))) ?_
      exact List.Perm.swap c x t2

theorem set_getD_self : ∀ (l : List ℚ) (a : Nat), l.set a (l.getD a 0) = l := by
  intro l
  induction l with
  | nil => intro a; rfl
  | cons x t ih =>
    intro a
    cases a with
    | zero => rfl
    | succ a => simpa using ih a

theorem set_set_perm : ∀ (l : List ℚ) (a b : Nat), a < l.length → b < l.length →
    List.Perm ((l.set a (l.getD b 0)).set b (l.getD a 0)) l := by
  intro l
  induction l with
  | nil => intro a b ha; simp at ha
  | cons x t ih =>
    intro a b ha hb
    cases a with
    | zero =>
      cases b with
      | zero => simp [set_getD_self]
      | succ b =>
        simp only [List.getD_cons_succ, List.getD_cons_zero, List.set_cons_zero,
          List.set_cons_succ]
        exact cons_set_perm x t b (by simpa using hb)
    | succ a =>
      cases b with
      | zero =>
        simp only [List.getD_cons_succ, List.getD_cons_zero, List.set_cons_zero,
          List.set_cons_succ]
        exact cons_set_perm x t a (by simpa using ha)
      | succ b =>
        simp only [List.getD_cons_succ, List.set_cons_succ]
        exact List.Perm.cons x (ih a b (by simpa using ha) (by simpa using hb))



theorem swap_writeAt_perm (l : List ℚ) (a b : Int)
    (h0a : 0 ≤ a) (ha : a < (l.length : Int)) (h0b : 0 ≤ b) (hb : b < (l.length : Int)) :
    List.Perm (writeAt (writeAt l a (readAt l b)) b (readAt l a)) l := by
  unfold writeAt readAt
  rw [if_pos h0b, if_pos h0a, if_pos h0a, if_pos h0b]
  exact set_set_perm l a.toNat b.toNat (by omega) (by omega)

theorem length_swap (l : List ℚ) (a b : Int) (v w : ℚ) :
    (writeAt (writeAt l a v) b w).length = l.length := by
  rw [length_writeAt, length_writeAt]

theorem swap_readAt_fst (l : List ℚ) (a b : Int)
    (h0b : 0 ≤ b) (hb : b < (l.length : Int)) :
    readAt (writeAt (writeAt l a (readAt l b)) b (readAt l a)) b = readAt l a := by
  rw [readAt_writeAt_same _ _ _ h0b (by rw [length_writeAt]; omega)]

theorem swap_readAt_snd (l : List ℚ) (a b : Int)
    (h0a : 0 ≤ a) (ha : a < (l.length : Int)) (hne : a ≠ b) :
    readAt (writeAt (writeAt l a (readAt l b)) b (readAt l a)) a = readAt l b := by
  rw [readAt_writeAt_ne _ _ _ _ hne, readAt_writeAt_same _ _ _ h0a ha]

theorem swap_readAt_other (l : List ℚ) (a b : Int) (m : Int)
    (hma : m ≠ a) (hmb : m ≠ b) :
    readAt (writeAt (writeAt l a (readAt l b)) b (readAt l a)) m = readAt l m := by
  rw [readAt_writeAt_ne _ _ _ _ hmb, readAt_writeAt_ne _ _ _ _ hma]



theorem partitionLoop_spec (pivot : ℚ) (left right : Int) :
    ∀ (values : List ℚ) (i j : Int),
    0 ≤ left → left ≤ i → j ≤ right → right < (values.length : Int) →
    (∀ m : Int, left ≤ m → m < i → readAt values m ≤ pivot) →
    (∀ m : Int, j < m → m ≤ right → pivot ≤ readAt values m) →
    (i ≤ j → ∃ k : Int, i ≤ k ∧ k ≤ right ∧ ¬ readAt values k < pivot) →
    (i ≤ j → ∃ k : Int, left ≤ k ∧ k ≤ j ∧ ¬ pivot < readAt values k) →
    (j < i → left < i ∧ j < right) →
    (partitionLoop values pivot i j).1.length = values.length ∧
    List.Perm (partitionLoop values pivot i j).1 values ∧
    (∀ m : Int, m < i ∨ j < m → readAt (partitionLoop values pivot i j).1 m = readAt values m) ∧
    (partitionLoop values pivot i j).2.2 < (partitionLoop values pivot i j).2.1 ∧
    left < (partitionLoop values pivot i j).2.1 ∧
    (partitionLoop values pivot i j).2.2 < right ∧
    i ≤ (partitionLoop values pivot i j).2.1 ∧
    (partitionLoop values pivot i j).2.2 ≤ j ∧
    (∀ m : Int, left ≤ m → m < (partitionLoop values pivot i j).2.1 →
      readAt (partitionLoop values pivot i j).1 m ≤ pivot) ∧
    (∀ m : Int, (partitionLoop values pivot i j).2.2 < m → m ≤ right →
      pivot ≤ readAt (partitionLoop values pivot i j).1 m) := by
  intro values i j hl0 hleft hright hlen hpre hpost hstopI hstopJ hentry
  rw [partitionLoop]
  by_cases hij : i ≤ j
  · rw [dif_pos hij]
    dsimp only
    obtain ⟨kI, hkI1, hkI2, hkI3⟩ := hstopI hij
    obtain ⟨kJ, hkJ1, hkJ2, hkJ3⟩ := hstopJ hij
    obtain ⟨hadv1, hadv2, hadv3, hadv4⟩ :=
      advanceI_spec values pivot i kI (by omega) hkI1 (by omega) hkI3
    obtain ⟨hadw1, hadw2, hadw3, hadw4⟩ :=
      advanceJ_spec values pivot j kJ hkJ2 (by omega) hkJ3
    have hii1 : i ≤ advanceI values pivot i := hadv1
    have hi1r : advanceI values pivot i ≤ right := by omega
    have hjj1 : advanceJ values pivot j ≤ j := hadw2
    have hlj1 : left ≤ advanceJ values pivot j := by omega
    have hnewpre : ∀ m : Int, left ≤ m → m < advanceI values pivot i →
        readAt values m ≤ pivot := by
      intro m hm1 hm2
      by_cases hmi : m < i
      · exact hpre m hm1 hmi
      · exact le_of_lt (hadv4 m (by omega) hm2)
    have hnewpost : ∀ m : Int, advanceJ values pivot j < m → m ≤ right →
        pivot ≤ readAt values m := by
      intro m hm1 hm2
      by_cases hmj : j < m
      · exact hpost m hmj hm2
      · exact le_of_lt (hadw4 m hm1 (by omega))
    by_cases hcross : advanceI values pivot i ≤ advanceJ values pivot j
    · rw [dif_pos hcross]
      set i1 := advanceI values pivot i with hi1def
      set j1 := advanceJ values pivot j with hj1def
      set values2 := writeAt (writeAt values i1 (readAt values j1)) j1 (readAt values i1)
        with hv2def
      have h0i1 : 0 ≤ i1 := by omega
      have hi1len : i1 < (values.length : Int) := by omega
      have h0j1 : 0 ≤ j1 := by omega
      have hj1len : j1 < (values.length : Int) := by omega
      have hperm2 : List.Perm values2 values :=
        swap_writeAt_perm values i1 j1 h0i1 hi1len h0j1 hj1len
      have hlen2 : values2.length = values.length := hperm2.length_eq
      have hr_j1 : readAt values2 j1 = readAt values i1 :=
        swap_readAt_fst values i1 j1 h0j1 hj1len
      have hr_i1 : i1 ≠ j1 → readAt values2 i1 = readAt values j1 :=
        swap_readAt_snd values i1 j1 h0i1 hi1len
      have hr_other : ∀ m : Int, m ≠ i1 → m ≠ j1 → readAt values2 m = readAt values m :=
        swap_readAt_other values i1 j1
      have hvi1 : ¬ readAt values i1 < pivot := hadv3
      have hvj1 : ¬ pivot < readAt values j1 := hadw3
      have hval_i1 : readAt values2 i1 ≤ pivot := by
        by_cases he : i1 = j1
        · rw [he, hr_j1, he]
          exact not_lt.mp hvj1
        · rw [hr_i1 he]
          exact not_lt.mp hvj1
      have hval_j1 : pivot ≤ readAt values2 j1 := by
        rw [hr_j1]
        exact not_lt.mp hvi1
      have hpre2 : ∀ m : Int, left ≤ m → m < i1 + 1 → readAt values2 m ≤ pivot := by
        intro m hm1 hm2
        by_cases hmi : m = i1
        · rw [hmi]; exact hval_i1
        · by_cases hmj : m = j1
          · omega
          · rw [hr_other m hmi hmj]
            exact hnewpre m hm1 (by omega)
      have hpost2 : ∀ m : Int, j1 - 1 < m → m ≤ right → pivot ≤ readAt values2 m := by
        intro m hm1 hm2
        by_cases hmj : m = j1
        · rw [hmj]; exact hval_j1
        · by_cases hmi : m = i1
          · omega
          · rw [hr_other m hmi hmj]
            exact hnewpost m (by omega) hm2
      have hstopI2 : i1 + 1 ≤ j1 - 1 →
          ∃ k : Int, i1 + 1 ≤ k ∧ k ≤ right ∧ ¬ readAt values2 k < pivot := by
        intro hc
        refine ⟨j1, by omega, by omega, ?_⟩
        rw [hr_j1]
        exact hvi1
      have hstopJ2 : i1 + 1 ≤ j1 - 1 →
          ∃ k : Int, left ≤ k ∧ k ≤ j1 - 1 ∧ ¬ pivot < readAt values2 k := by
        intro hc
        refine ⟨i1, by omega, by omega, ?_⟩
        rw [hr_i1 (by omega)]
        exact hvj1
      have hentry2 : j1 - 1 < i1 + 1 → left < i1 + 1 ∧ j1 - 1 < right := by
        intro _
        constructor <;> omega
      have IH := partitionLoop_spec pivot left right values2 (i1 + 1) (j1 - 1)
        hl0 (by omega) (by omega) (by rw [hlen2]; exact hlen)
        hpre2 hpost2 hstopI2 hstopJ2 hentry2
      obtain ⟨IH1, IH2, IH3, IH4, IH5, IH6, IH7, IH8, IH9, IH10⟩ := IH
      refine ⟨?_, ?_, ?_, IH4, IH5, IH6, by omega, by omega, IH9, IH10⟩
      · rw [IH1, hlen2]
      · exact IH2.trans hperm2
      · intro m hm
        rw [IH3 m (by omega), hr_other m (by omega) (by omega)]
    · rw [dif_neg hcross]
      dsimp only
      refine ⟨rfl, List.Perm.refl values, fun m _ => rfl, by omega, by omega, by omega,
        by omega, by omega, ?_, ?_⟩
      · exact hnewpre
      · exact hnewpost
  · rw [dif_neg hij]
    have he := hentry (by omega)
    dsimp only
    refine ⟨rfl, List.Perm.refl values, fun m _ => rfl, by omega, by omega, by omega,
      by omega, by omega, hpre, hpost⟩
termination_by _ i j => (j - i + 1).toNat
decreasing_by
  omega



/-- Elements of a permuted array that agrees with the original outside
`[a, b]` are, inside `[a, b]`, drawn from the original's `[a, b]` segment. -/
theorem segment_mem (l l' : List ℚ) (a b : Nat)
    (hperm : List.Perm l' l) (hab : a ≤ b) (hblen : b < l'.length)
    (hframe : ∀ k : Nat, k < a ∨ b < k → l'.getD k 0 = l.getD k 0) :
    ∀ k : Nat, a ≤ k → k ≤ b → k < l'.length →
      ∃ k2 : Nat, a ≤ k2 ∧ k2 ≤ b ∧ k2 < l.length ∧ l'.getD k 0 = l.getD k2 0 := by
  have hlen : l'.length = l.length := hperm.length_eq
  have hu : l'.take a = l.take a := by
    apply List.ext_getElem (by simp [hlen])
    intro x h1 h2
    have hx : x < a := by simp at h1; omega
    have hxl : x < l'.length := by simp at h1; omega
    have hxl2 : x < l.length := by omega
    have := hframe x (Or.inl hx)
    rw [List.getD_eq_getElem _ 0 hxl, List.getD_eq_getElem _ 0 hxl2] at this
    simpa [List.getElem_take] using this
  have hw : l'.drop (b + 1) = l.drop (b + 1) := by
    apply List.ext_getElem (by simp [hlen])
    intro x h1 h2
    have hxl : b + 1 + x < l'.length := by simp at h1; omega
    have hxl2 : b + 1 + x < l.length := by omega
    have := hframe (b + 1 + x) (Or.inr (by omega))
    rw [List.getD_eq_getElem _ 0 hxl, List.getD_eq_getElem _ 0 hxl2] at this
    rw [List.getElem_drop _, List.getElem_drop _]
    exact this
  -- middle segments are permutations of each other
  have hdec : ∀ t : List ℚ, t = t.take a ++ ((t.drop a).take (b + 1 - a) ++ t.drop (b + 1)) := by
    intro t
    conv_lhs => rw [← List.take_append_drop a t]
    congr 1
    conv_lhs => rw [← List.take_append_drop (b + 1 - a) (t.drop a)]
    congr 1
    rw [List.drop_drop]
    congr 1
    omega
  have hsegperm : List.Perm ((l'.drop a).take (b + 1 - a)) ((l.drop a).take (b + 1 - a)) := by
    have h1 : List.Perm
        (l.take a ++ ((l'.drop a).take (b + 1 - a) ++ l.drop (b + 1)))
        (l.take a ++ ((l.drop a).take (b + 1 - a) ++ l.drop (b + 1))) := by
      have e1 : l' = l.take a ++ ((l'.drop a).take (b + 1 - a) ++ l.drop (b + 1)) := by
        rw [← hu, ← hw]
        exact hdec l'
      have e2 : l = l.take a ++ ((l.drop a).take (b + 1 - a) ++ l.drop (b + 1)) := hdec l
      rw [← e1, ← e2]
      exact hperm
    have h2 := (List.perm_append_left_iff _).mp h1
    exact (List.perm_append_right_iff _).mp h2
  intro k hk1 hk2 hk3
  have hkk : k - a < ((l'.drop a).take (b + 1 - a)).length := by
    simp
    omega
  have hmem : l'.getD k 0 ∈ (l'.drop a).take (b + 1 - a) := by
    have : ((l'.drop a).take (b + 1 - a))[k - a] = l'[k] := by
      rw [List.getElem_take _, List.getElem_drop _]
      congr 1
      omega
    rw [List.getD_eq_getElem _ 0 hk3, ← this]
    exact List.getElem_mem _
  have hmem2 : l'.getD k 0 ∈ (l.drop a).take (b + 1 - a) := hsegperm.mem_iff.mp hmem
  obtain ⟨idx, hidx, hidxeq⟩ := List.getElem_of_mem hmem2
  have hidxlen : idx < (l.drop a).length := by
    have := hidx
    simp at this
    simp
    omega
  have hidxb : idx < b + 1 - a := by
    have := hidx
    simp at this
    omega
  refine ⟨a + idx, by omega, by omega, by simp at hidxlen; omega, ?_⟩
  conv_rhs => rw [List.getD_eq_getElem _ 0 (show a + idx < l.length by simp at hidxlen; omega)]
  rw [← hidxeq, List.getElem_take _, List.getElem_drop _]



/-- Transport a pointwise bound on an index segment across a permutation
that fixes everything outside the segment. -/
theorem transport_bound (P : ℚ → Prop) (l l' : List ℚ) (a b : Int)
    (hperm : List.Perm l' l)
    (hab : a ≤ b) (hblen : b < (l'.length : Int))
    (hframe : ∀ m : Int, m < a ∨ b < m → readAt l' m = readAt l m)
    (hbound : ∀ m : Int, a ≤ m → m ≤ b → P (readAt l m)) :
    ∀ m : Int, a ≤ m → m ≤ b → P (readAt l' m) := by
  have hlen := hperm.length_eq
  intro m hm1 hm2
  by_cases hm0 : 0 ≤ m
  · have hmlen : m < (l'.length : Int) := by omega
    have hframeN : ∀ k : Nat, k < a.toNat ∨ b.toNat < k → l'.getD k 0 = l.getD k 0 := by
      intro k hk
      have hh := hframe (k : Int) (by omega)
      unfold readAt at hh
      rw [if_pos (by omega), if_pos (by omega)] at hh
      simpa using hh
    obtain ⟨k2, hk21, hk22, hk23, hk24⟩ :=
      segment_mem l l' a.toNat b.toNat hperm (by omega) (by omega) hframeN
        m.toNat (by omega) (by omega) (by omega)
    have heq : readAt l' m = readAt l (k2 : Int) := by
      unfold readAt
      rw [if_pos hm0, if_pos (by omega)]
      simpa using hk24
    rw [heq]
    exact hbound (k2 : Int) (by omega) (by omega)
  · rw [readAt_neg _ _ (by omega)]
    have hb := hbound m hm1 hm2
    rw [readAt_neg _ _ (by omega)] at hb
    exact hb



theorem floatQuickSortFuel_spec : ∀ (fuel : Nat) (values : List ℚ) (left right : Int),
    0 ≤ left → right < (values.length : Int) → (right - left).toNat < fuel →
    (floatQuickSortFuel fuel values left right).length = values.length ∧
    List.Perm (floatQuickSortFuel fuel values left right) values ∧
    (∀ m : Int, m < left ∨ right < m →
      readAt (floatQuickSortFuel fuel values left right) m = readAt values m) ∧
    (∀ m m' : Int, left ≤ m → m ≤ m' → m' ≤ right →
      readAt (floatQuickSortFuel fuel values left right) m ≤
        readAt (floatQuickSortFuel fuel values left right) m') := by
  intro fuel
  induction fuel with
  | zero =>
    intro values left right _ _ hfuel
    omega
  | succ fuel ih =>
    intro values left right hl0 hlen hfuel
    have step : ∀ (vals : List ℚ) (a b : Int), 0 ≤ a → b < (vals.length : Int) →
        (a < b → (b - a).toNat < fuel) →
        (if a < b then floatQuickSortFuel fuel vals a b else vals).length = vals.length ∧
        List.Perm (if a < b then floatQuickSortFuel fuel vals a b else vals) vals ∧
        (∀ m : Int, m < a ∨ b < m →
          readAt (if a < b then floatQuickSortFuel fuel vals a b else vals) m =
            readAt vals m) ∧
        (∀ m m' : Int, a ≤ m → m ≤ m' → m' ≤ b →
          readAt (if a < b then floatQuickSortFuel fuel vals a b else vals) m ≤
            readAt (if a < b then floatQuickSortFuel fuel vals a b else vals) m') := by
      intro vals a b h0 hblen2 hf
      by_cases hab : a < b
      · rw [if_pos hab]
        exact ih vals a b h0 hblen2 (hf hab)
      · rw [if_neg hab]
        refine ⟨rfl, List.Perm.refl _, fun m _ => rfl, ?_⟩
        intro m m' h1 h2 h3
        have hmm : m = m' := by omega
        rw [hmm]
    by_cases hlr : left ≤ right
    · simp only [floatQuickSortFuel]
      set pivot := readAt values ((left + right) / 2) with hpivdef
      set p := partitionLoop values pivot left right with hpdef
      have hmid1 : left ≤ (left + right) / 2 := by omega
      have hmid2 : (left + right) / 2 ≤ right := by omega
      obtain ⟨PS1, PS2, PS3, PS4, PS5, PS6, PS7, PS8, PS9, PS10⟩ :=
        partitionLoop_spec pivot left right values left right hl0 (le_refl left)
          (le_refl right) hlen
          (fun m hm1 hm2 => absurd hm1 (by omega))
          (fun m hm1 hm2 => absurd hm1 (by omega))
          (fun _ => ⟨(left + right) / 2, hmid1, hmid2, lt_irrefl pivot⟩)
          (fun _ => ⟨(left + right) / 2, hmid1, hmid2, lt_irrefl pivot⟩)
          (fun hcon => absurd hlr (by omega))
      rw [← hpdef] at PS1 PS2 PS3 PS4 PS5 PS6 PS7 PS8 PS9 PS10
      set v2 := if left < p.2.2 then floatQuickSortFuel fuel p.1 left p.2.2 else p.1
        with hv2def
      obtain ⟨S1len, S1perm, S1frame, S1sorted⟩ :=
        step p.1 left p.2.2 hl0 (by rw [PS1]; omega) (fun hlj => by omega)
      rw [← hv2def] at S1len S1perm S1frame S1sorted
      have hv2len : v2.length = values.length := by rw [S1len, PS1]
      set out := if p.2.1 < right then floatQuickSortFuel fuel v2 p.2.1 right else v2
        with houtdef
      obtain ⟨S2len, S2perm, S2frame, S2sorted⟩ :=
        step v2 p.2.1 right (by omega) (by rw [hv2len]; omega) (fun hir => by omega)
      rw [← houtdef] at S2len S2perm S2frame S2sorted
      have boundC_v2 : ∀ m : Int, left ≤ m → m < p.2.1 → readAt v2 m ≤ pivot := by
        intro m hm1 hm2
        by_cases hmj : m ≤ p.2.2
        · refine transport_bound (fun q => q ≤ pivot) p.1 v2 left p.2.2 S1perm
            (by omega) (by rw [S1len, PS1]; omega) S1frame ?_ m hm1 hmj
          intro m2 hm21 hm22
          exact PS9 m2 hm21 (by omega)
        · rw [S1frame m (by omega)]
          exact PS9 m hm1 hm2
      have boundC_out : ∀ m : Int, left ≤ m → m < p.2.1 → readAt out m ≤ pivot := by
        intro m hm1 hm2
        rw [S2frame m (by omega)]
        exact boundC_v2 m hm1 hm2
      have boundD_v2 : ∀ m : Int, p.2.2 < m → m ≤ right → pivot ≤ readAt v2 m := by
        intro m hm1 hm2
        rw [S1frame m (by omega)]
        exact PS10 m hm1 hm2
      have boundD_out : ∀ m : Int, p.2.2 < m → m ≤ right → pivot ≤ readAt out m := by
        intro m hm1 hm2
        by_cases hmi : p.2.1 ≤ m
        · refine transport_bound (fun q => pivot ≤ q) v2 out p.2.1 right S2perm
            (by omega) (by rw [S2len, hv2len]; omega) S2frame ?_ m hmi hm2
          intro m2 hm21 hm22
          exact boundD_v2 m2 (by omega) hm22
        · rw [S2frame m (by omega)]
          exact boundD_v2 m hm1 hm2
      refine ⟨?_, ?_, ?_, ?_⟩
      · rw [S2len, hv2len]
      · exact (S2perm.trans S1perm).trans PS2
      · intro m hm
        rw [S2frame m (by omega), S1frame m (by omega), PS3 m (by omega)]
      · intro m m' h1 h2 h3
        by_cases hc1 : m' ≤ p.2.2
        · rw [S2frame m (by omega), S2frame m' (by omega)]
          exact S1sorted m m' h1 h2 hc1
        · by_cases hc2 : m < p.2.1
          · exact le_trans (boundC_out m h1 hc2) (boundD_out m' (by omega) h3)
          · exact S2sorted m m' (by omega) h2 h3
    · have hp : partitionLoop values (readAt values ((left + right) / 2)) left right =
          (values, left, right) := by
        rw [partitionLoop, dif_neg (by omega)]
      simp only [floatQuickSortFuel, hp]
      rw [if_neg (by omega : ¬ left < right), if_neg (by omega : ¬ left < right)]
      refine ⟨rfl, List.Perm.refl _, fun m _ => rfl, ?_⟩
      intro m m' h1 h2 h3
      have : False := by omega
      exact this.elim



theorem probeWaterLevelSample_range (durationSample : Nat) :
    0 ≤ probeWaterLevelSample durationSample ∧ probeWaterLevelSample durationSample ≤ 100 := by
  unfold probeWaterLevelSample
  split_ifs with h
  · norm_num
  · dsimp only
    set y := ((((durationSample : ℚ) / 2) / (291 / 10) - WATER_TANK_SENSOR_OFFSET_DISTANCE) /
      WATER_TANK_FILL_EMPTY_DISTANCE) * 100 with hy
    have h1 : 0 ≤ max 0 (min y 100) := le_max_left 0 _
    have h2 : max 0 (min y 100) ≤ 100 := max_le (by norm_num) (min_le_right y 100)
    constructor <;> linarith

/-- C10: `probeWaterLevel` takes exactly 10 samples, each a fill percentage
clamped into `[0, 100]`; there is a sorted (ascending) rearrangement of the
sample batch whose element at index 4 (= `WATER_LEVEL_PROBE_SAMPLES / 2 - 1`,
the code's median pick for an even batch) is, rounded to an integer, the
returned level; and the returned level is in `[0, 100]`. -/
theorem probeWaterLevel_median_spec (durations : Nat → Nat) :
    ((List.range WATER_LEVEL_PROBE_SAMPLES).map
        (fun nextSampleIndex => probeWaterLevelSample (durations nextSampleIndex))).length = 10 ∧
    (∀ q ∈ (List.range WATER_LEVEL_PROBE_SAMPLES).map
        (fun nextSampleIndex => probeWaterLevelSample (durations nextSampleIndex)),
      0 ≤ q ∧ q ≤ 100) ∧
    (∃ sorted : List ℚ,
      List.Perm sorted ((List.range WATER_LEVEL_PROBE_SAMPLES).map
        (fun nextSampleIndex => probeWaterLevelSample (durations nextSampleIndex))) ∧
      sorted.Sorted (fun a b => a ≤ b) ∧
      probeWaterLevel durations = (round (sorted.getD 4 0)).toNat) ∧
    probeWaterLevel durations ≤ 100 := by
  set samples := (List.range WATER_LEVEL_PROBE_SAMPLES).map
    (fun nextSampleIndex => probeWaterLevelSample (durations nextSampleIndex)) with hsdef
  have hlen : samples.length = 10 := by
    rw [hsdef]
    simp [WATER_LEVEL_PROBE_SAMPLES]
  have hrange : ∀ q ∈ samples, 0 ≤ q ∧ q ≤ 100 := by
    intro q hq
    rw [hsdef, List.mem_map] at hq
    obtain ⟨idx, _, rfl⟩ := hq
    exact probeWaterLevelSample_range (durations idx)
  obtain ⟨Qlen, Qperm, Qframe, Qsorted⟩ :=
    floatQuickSortFuel_spec WATER_LEVEL_PROBE_SAMPLES samples 0
      ((WATER_LEVEL_PROBE_SAMPLES : Int) - 1)
      (by norm_num) (by rw [hlen]; norm_num [WATER_LEVEL_PROBE_SAMPLES])
      (by norm_num [WATER_LEVEL_PROBE_SAMPLES])
  set sorted := floatQuickSortFuel WATER_LEVEL_PROBE_SAMPLES samples 0
    ((WATER_LEVEL_PROBE_SAMPLES : Int) - 1) with hsorteddef
  have hsortedlen : sorted.length = 10 := by rw [Qlen, hlen]
  have hprobe : probeWaterLevel durations = (round (sorted.getD 4 0)).toNat := rfl
  have hsortedsorted : sorted.Sorted (fun a b => a ≤ b) := by
    rw [List.Sorted, List.pairwise_iff_get]
    intro a b hab
    have habn : (a : Nat) < (b : Nat) := hab
    have hblt : (b : Nat) < sorted.length := b.isLt
    have halt : (a : Nat) < sorted.length := a.isLt
    have key := Qsorted ((a : Nat) : Int) ((b : Nat) : Int)
      (by omega) (by omega)
      (by simp only [WATER_LEVEL_PROBE_SAMPLES]; push_cast; omega)
    unfold readAt at key
    rw [if_pos (by omega), if_pos (by omega)] at key
    simp only [Int.toNat_natCast] at key
    rw [List.getD_eq_getElem _ 0 halt, List.getD_eq_getElem _ 0 hblt] at key
    simpa [List.get_eq_getElem] using key
  have hmember : sorted.getD 4 0 ∈ samples := by
    have h4 : (4 : Nat) < sorted.length := by omega
    rw [List.getD_eq_getElem _ 0 h4]
    exact Qperm.mem_iff.mp (List.getElem_mem _)
  obtain ⟨hm0, hm100⟩ := hrange _ hmember
  have hround : (round (sorted.getD 4 0)).toNat ≤ 100 := by
    have hle : round (sorted.getD 4 0) ≤ round (100 : ℚ) := by
      rw [round_eq, round_eq]
      exact Int.floor_le_floor (by linarith)
    have h100 : round (100 : ℚ) = 100 := by norm_num
    rw [h100] at hle
    omega
  refine ⟨hlen, hrange, ⟨sorted, Qperm, hsortedsorted, hprobe⟩, ?_⟩
  rw [hprobe]
  exact hround


/-- C10 witness: the specification instantiated at the all-failed-samples
environment (every echo duration zero). -/
theorem probeWaterLevel_median_spec_witness :
    (0 ≤ probeWaterLevelSample 0 ∧ probeWaterLevelSample 0 ≤ 100) ∧
    probeWaterLevel (fun _ => 0) ≤ 100 :=
  ⟨(probeWaterLevel_median_spec (fun _ => 0)).2.1 (probeWaterLevelSample 0) (by decide),
   (probeWaterLevel_median_spec (fun _ => 0)).2.2.2⟩

end WaterTank
